import Mathlib

/-!
Verification of the streaming-reconciliation adapter (`cursor_cli.py`) and the
layered conversation-memory manager (`memory.py`) of the InstrumentGPT
repository.  Python strings are modelled as `List Char`; Python's dynamic
values appearing in JSON are modelled by an explicit `JVal` type further below.
-/

/-- Python strings, modelled as lists of characters. -/
abbrev Str := List Char

/-- Python's `str.strip()` whitespace class (the characters actually stripped
by `strip()` with no argument). -/
def pySpace (c : Char) : Bool :=
  c = ' ' || c = '\t' || c = '\n' || c = '\r' || c = '\x0b' || c = '\x0c'

/-- Python `s.strip()`: drop leading and trailing whitespace. -/
def pyStrip (s : Str) : Str :=
  ((s.dropWhile pySpace).reverse.dropWhile pySpace).reverse

/-- Python `s.rstrip(".")`: drop trailing dots. -/
def pyRstripDot (s : Str) : Str :=
  (s.reverse.dropWhile (fun c => c = '.')).reverse

/-! ## Text Reconciler — `cursor_cli.iter_events`, lines 190–215

The five-way classification of an incoming assistant text fragment against the
`accumulated` state.  Events carry the same payloads the Python generator
yields; `done` keeps the exit code as an integer (Python stringifies it). -/

/-- Events yielded by `iter_events` (`cursor_cli.py` lines 153–159). -/
inductive StreamEvent where
  | text (s : Str)
  | text_replace (s : Str)
  | tool (s : Str)
  | session_id (s : Str)
  | error (s : Str)
  | done (rc : Int)
deriving DecidableEq, Repr

/-- One reconciliation step (`cursor_cli.py` lines 196–215): given the prior
`accumulated` text and an incoming fragment `text`, returns the new
accumulated text and the (zero or one) events yielded.  The Python condition
`len(text) >= len(accumulated) * 0.5` is exact float arithmetic for any
realistic length and is equivalent to `len(accumulated) <= 2 * len(text)`. -/
def reconcile_step (accumulated text : Str) : Str × List StreamEvent :=
  if accumulated = [] then
    (text, [StreamEvent.text text])
  else if accumulated <+: text then
    -- cumulative re-send: extract the new tail
    let new_part := text.drop accumulated.length
    if new_part = [] then (accumulated, [])
    else (text, [StreamEvent.text new_part])
  else if text <+: accumulated ∨ text <:+: accumulated then
    (accumulated, [])  -- subset of what we already have
  else if accumulated.length ≤ 2 * text.length ∧ 100 < text.length then
    (text, [StreamEvent.text_replace text])  -- final complete re-send
  else
    (accumulated ++ text, [StreamEvent.text text])  -- genuine new delta

/-- Accumulate one fragment into a running (state, emitted events) pair. -/
def reconcile_fold_step (st : Str × List StreamEvent) (t : Str) : Str × List StreamEvent :=
  let r := reconcile_step st.1 t
  (r.1, st.2 ++ r.2)

/-- Feed a sequence of fragments through the reconciler, starting from the
empty accumulated state, collecting all yielded events in order. -/
def reconcile_run (frags : List Str) : Str × List StreamEvent :=
  frags.foldl reconcile_fold_step ([], [])

/-- Reduce a sequence of emitted operations: `text` appends its payload,
`text_replace` discards everything accumulated and becomes its payload;
other events leave the reconstruction unchanged. -/
def reduce_op (acc : Str) : StreamEvent → Str
  | StreamEvent.text s => acc ++ s
  | StreamEvent.text_replace s => s
  | _ => acc

/-- Reduce a whole operation sequence starting from the empty string. -/
def reduce_ops (ops : List StreamEvent) : Str :=
  ops.foldl reduce_op []

example : reconcile_run [("Hello".toList), ("Hello world".toList), ("Hello world!".toList) ] =
    ("Hello world!".toList,
     [StreamEvent.text ("Hello".toList), StreamEvent.text (" world".toList),
      StreamEvent.text ("!".toList)]) := by decide

example : reconcile_step ("abcd".toList) ("bc".toList) = ("abcd".toList, []) := by decide

example : reconcile_step ['a'] ['a'] = (['a'], []) := by decide

/-- One reconciliation step is sound for the reduction semantics: folding the
emitted operations over the prior reconstruction yields the new accumulated
state. -/
theorem reconcile_step_reduce (acc t : Str) :
    (reconcile_step acc t).2.foldl reduce_op acc = (reconcile_step acc t).1 := by
  unfold reconcile_step
  by_cases h0 : acc = []
  · simp [h0, reduce_op]
  by_cases h1 : acc <+: t
  · obtain ⟨u, rfl⟩ := h1
    by_cases h2 : u = []
    · simp [h0, h2, List.prefix_append, List.drop_left]
    · simp [h0, h2, List.prefix_append, reduce_op, List.drop_left]
  by_cases h3 : t <+: acc ∨ t <:+: acc
  · simp [h0, h1, h3]
  by_cases h4 : acc.length ≤ 2 * t.length ∧ 100 < t.length
  · simp [h0, h1, h3, h4, reduce_op]
  · simp [h0, h1, h3, h4, reduce_op]

/-- Folding fragments preserves the reconstruction invariant from any starting
point whose emitted-so-far operations already reduce to its state. -/
theorem reconcile_fold_invariant :
    ∀ (frags : List Str) (acc : Str) (ops : List StreamEvent),
      reduce_ops ops = acc →
      reduce_ops (frags.foldl reconcile_fold_step (acc, ops)).2 =
        (frags.foldl reconcile_fold_step (acc, ops)).1 := by
  intro frags
  induction frags with
  | nil => intro acc ops h; simpa using h
  | cons t rest ih =>
    intro acc ops h
    have hstep : reduce_ops (ops ++ (reconcile_step acc t).2) = (reconcile_step acc t).1 := by
      unfold reduce_ops
      rw [List.foldl_append]
      rw [show (ops.foldl reduce_op [] : Str) = acc from h]
      exact reconcile_step_reduce acc t
    simpa [reconcile_fold_step] using ih (reconcile_step acc t).1 (ops ++ (reconcile_step acc t).2) hstep

/-- C1: for every finite sequence of non-empty text fragments fed through the
streaming reconciliation of `iter_events`, reducing the operations emitted so
far — starting from the empty string, each `text` (append) operation appends
its payload, each `text_replace` operation discards everything accumulated and
becomes its payload — yields a string exactly equal to the reconciler's
internal accumulated state.  (Instantiating `frags` at every prefix of a
stream gives the invariant after each fragment.) -/
theorem c1_reconciler_reconstruction (frags : List Str)
    (_hne : ∀ t ∈ frags, t ≠ []) :
    reduce_ops (reconcile_run frags).2 = (reconcile_run frags).1 := by
  have := reconcile_fold_invariant frags [] [] (by simp [reduce_ops])
  simpa [reconcile_run] using this

/-- C1 witness: the invariant evaluated on a concrete fragment sequence mixing
a first append, a cumulative re-send and an unrelated delta. -/
theorem c1_reconciler_reconstruction_witness :
    (∀ t ∈ [("Hello".toList : Str), "Hello world".toList, "Hi!".toList], t ≠ []) ∧
    reduce_ops (reconcile_run [("Hello".toList : Str), "Hello world".toList, "Hi!".toList]).2 =
      (reconcile_run [("Hello".toList : Str), "Hello world".toList, "Hi!".toList]).1 :=
  ⟨by decide, c1_reconciler_reconstruction _ (by decide)⟩

/-- C5 counterexample: feeding a fragment equal to the accumulated state (a
duplicate cumulative re-send with empty tail) emits no operation at all,
whereas the claim asserts the operation `append(text[len(accumulated):])`
(that is, `append("")`) is yielded.  Here `accumulated = text = "a"`. -/
theorem c5_cumulative_resend_counterexample :
    ¬ ((reconcile_step ['a'] ['a']).2 =
         [StreamEvent.text ((['a'] : Str).drop (['a'] : Str).length)] ∧
       (reconcile_step ['a'] ['a']).1 = ['a']) := by decide

/-- C5 (amended): for every `accumulated` and `text` with
`text.startswith(accumulated)`, the new accumulated state equals `text`
exactly, and the emitted operation is `append(text[len(accumulated):])` —
except that when `accumulated` is non-empty and that tail is empty (an exact
duplicate), no operation is emitted. -/
theorem c5_cumulative_resend_amended (accumulated text : Str)
    (h : accumulated <+: text) :
    (reconcile_step accumulated text).1 = text ∧
    (reconcile_step accumulated text).2 =
      (if accumulated ≠ [] ∧ text.drop accumulated.length = [] then []
       else [StreamEvent.text (text.drop accumulated.length)]) := by
  obtain ⟨u, rfl⟩ := h
  unfold reconcile_step
  by_cases h0 : accumulated = []
  · simp [h0]
  · by_cases h2 : u = []
    · simp [h0, h2, List.prefix_append, List.drop_left]
    · simp [h0, h2, List.prefix_append, List.drop_left]

/-- C5 (amended) witness: a cumulative re-send with non-empty tail. -/
theorem c5_cumulative_resend_amended_witness :
    ((['a'] : Str) <+: ['a', 'b']) ∧
    ((reconcile_step ['a'] ['a', 'b']).1 = ['a', 'b'] ∧
     (reconcile_step ['a'] ['a', 'b']).2 =
       (if (['a'] : Str) ≠ [] ∧ (['a', 'b'] : Str).drop (['a'] : Str).length = [] then []
        else [StreamEvent.text ((['a', 'b'] : Str).drop (['a'] : Str).length)])) :=
  ⟨by decide, c5_cumulative_resend_amended ['a'] ['a', 'b'] (by decide)⟩

/-! ## Event Decoder / stream loop — `cursor_cli.iter_events`, lines 167–236

A decoded NDJSON line.  Blank and JSON-malformed lines are skipped by the
loop.  For an object line we record: the `session_id` field when present, the
`type` discriminator, the assistant `message.content` items, the `tool_call`
`subtype`, and the result of `_describe_tool_call` on the `tool_call` payload
(the describer's internal table lookup is abstracted as that resulting
string, which no claim inspects). -/

/-- One item of an assistant message's `content` array: `item.get("type")`
and `item.get("text", "")`. -/
structure ContentItem where
  itype : Str
  itext : Str
deriving DecidableEq, Repr

/-- One decoded line of the NDJSON stream. -/
inductive Line where
  | blank
  | malformed
  | obj (sid : Option Str) (etype : Str) (content : List ContentItem)
        (toolSub : Option Str) (toolDesc : Str)
deriving DecidableEq, Repr

/-- The loop's mutable state: the `session_id` local variable (Python `None`
initially) and the reconciler's `accumulated` string. -/
structure IterState where
  sessionVar : Option Str
  accumulated : Str
deriving DecidableEq, Repr

/-- Python truthiness of the `session_id` variable: `None` and the empty
string are falsy. -/
def truthyOptStr : Option Str → Bool
  | none => false
  | some s => !s.isEmpty

def strText : Str := "text".toList
def strAssistant : Str := "assistant".toList
def strToolCall : Str := "tool_call".toList
def strStarted : Str := "started".toList

/-- Processing of one assistant content item (`cursor_cli.py` lines 191–215):
items whose type is not `"text"` or whose text is empty are skipped, the rest
go through the reconciler. -/
def process_content (st : Str × List StreamEvent) (item : ContentItem) : Str × List StreamEvent :=
  if item.itype ≠ strText ∨ item.itext = [] then st
  else
    let r := reconcile_step st.1 item.itext
    (r.1, st.2 ++ r.2)

/-- Processing of one decoded line (`cursor_cli.py` lines 171–220): the
session-id check (`if not session_id and "session_id" in data`) runs first on
every object line, then the `type` dispatch. -/
def process_line (st : IterState) (l : Line) : IterState × List StreamEvent :=
  match l with
  | Line.blank => (st, [])
  | Line.malformed => (st, [])
  | Line.obj sid etype content toolSub toolDesc =>
    let sess : Option Str × List StreamEvent :=
      if truthyOptStr st.sessionVar = false then
        match sid with
        | some v => (some v, [StreamEvent.session_id v])
        | none => (st.sessionVar, [])
      else (st.sessionVar, [])
    if etype = strAssistant then
      let r := content.foldl process_content (st.accumulated, [])
      (⟨sess.1, r.1⟩, sess.2 ++ r.2)
    else if etype = strToolCall ∧ toolSub = some strStarted then
      (⟨sess.1, st.accumulated⟩,
       sess.2 ++ (if toolDesc = [] then [] else [StreamEvent.tool toolDesc]))
    else
      (⟨sess.1, st.accumulated⟩, sess.2)

/-- Accumulate one line into a running (state, emitted events) pair. -/
def iter_fold_step (p : IterState × List StreamEvent) (l : Line) : IterState × List StreamEvent :=
  let r := process_line p.1 l
  (r.1, p.2 ++ r.2)

/-- The main line loop of `iter_events`, started from `session_id = None` and
`accumulated = ""`. -/
def iter_events_loop (lines : List Line) : IterState × List StreamEvent :=
  lines.foldl iter_fold_step (⟨none, []⟩, [])

/-- The full event stream of `iter_events` (`cursor_cli.py` lines 167–236),
as a pure function of the decoded lines, the process exit code, and the text
captured from standard error.  After the loop: `if process.returncode and
process.returncode != 0` (equivalent to `returncode ≠ 0` on integers), the
stripped stderr is surfaced when non-empty, and a final `done` event always
follows.  The debug log, the stream-exception path and the `finally` kill are
not part of this pure model. -/
def iter_events (lines : List Line) (returncode : Int) (stderrText : Str) : List StreamEvent :=
  let r := iter_events_loop lines
  let stderrStripped := pyStrip stderrText
  (if returncode ≠ 0 ∧ stderrStripped ≠ [] then r.2 ++ [StreamEvent.error stderrStripped]
   else r.2) ++ [StreamEvent.done returncode]

def isErrorEvt : StreamEvent → Bool
  | StreamEvent.error _ => true
  | _ => false

def isTextEvt : StreamEvent → Bool
  | StreamEvent.text _ => true
  | _ => false

def isSessionEvt : StreamEvent → Bool
  | StreamEvent.session_id _ => true
  | _ => false

/-- A `session_id` event whose payload is a non-empty (truthy) id. -/
def isNonemptySessionEvt : StreamEvent → Bool
  | StreamEvent.session_id s => !s.isEmpty
  | _ => false

example : iter_events [Line.obj (some ("sid1".toList)) strAssistant [⟨strText, "hi".toList⟩] none []] 0 [] =
    [StreamEvent.session_id ("sid1".toList), StreamEvent.text ("hi".toList), StreamEvent.done 0] := by decide

/-- The reconciler emits only `text` and `text_replace` events: any predicate
false on those two kinds counts zero among its output. -/
theorem reconcile_step_countP (p : StreamEvent → Bool)
    (hp1 : ∀ s, p (StreamEvent.text s) = false)
    (hp2 : ∀ s, p (StreamEvent.text_replace s) = false)
    (acc t : Str) : (reconcile_step acc t).2.countP p = 0 := by
  unfold reconcile_step
  repeat' split
  all_goals try simp [List.countP_cons, hp1, hp2]
  all_goals repeat' split
  all_goals simp [List.countP_cons, hp1, hp2]

/-- The assistant-content fold only adds reconciler events. -/
theorem content_fold_countP (p : StreamEvent → Bool)
    (hp1 : ∀ s, p (StreamEvent.text s) = false)
    (hp2 : ∀ s, p (StreamEvent.text_replace s) = false) :
    ∀ (items : List ContentItem) (init : Str × List StreamEvent),
      ((items.foldl process_content init).2).countP p = init.2.countP p := by
  intro items
  induction items with
  | nil => intro init; rfl
  | cons item rest ih =>
    intro init
    rw [List.foldl_cons, ih]
    unfold process_content
    split
    · rfl
    · simp [List.countP_append, reconcile_step_countP p hp1 hp2]

/-- A single line never emits events beyond reconciler output, tool
indicators and session ids: any predicate false on all four kinds counts
zero among one line's events. -/
theorem process_line_countP (p : StreamEvent → Bool)
    (hp1 : ∀ s, p (StreamEvent.text s) = false)
    (hp2 : ∀ s, p (StreamEvent.text_replace s) = false)
    (hp3 : ∀ s, p (StreamEvent.tool s) = false)
    (hp4 : ∀ s, p (StreamEvent.session_id s) = false)
    (st : IterState) (l : Line) : ((process_line st l).2).countP p = 0 := by
  cases l with
  | blank => rfl
  | malformed => rfl
  | obj sid etype content toolSub toolDesc =>
    have hc := content_fold_countP p hp1 hp2 content (st.accumulated, [])
    unfold process_line
    cases sid <;> repeat' split
    all_goals simp_all [List.countP_append, List.countP_cons, hp3, hp4]

/-- The whole line loop emits no events of a kind not produced per line. -/
theorem iter_loop_countP (p : StreamEvent → Bool)
    (hp1 : ∀ s, p (StreamEvent.text s) = false)
    (hp2 : ∀ s, p (StreamEvent.text_replace s) = false)
    (hp3 : ∀ s, p (StreamEvent.tool s) = false)
    (hp4 : ∀ s, p (StreamEvent.session_id s) = false) :
    ∀ (lines : List Line) (start : IterState × List StreamEvent),
      ((lines.foldl iter_fold_step start).2).countP p = start.2.countP p := by
  intro lines
  induction lines with
  | nil => intro start; rfl
  | cons l rest ih =>
    intro start
    rw [List.foldl_cons, ih]
    unfold iter_fold_step
    simp [List.countP_append, process_line_countP p hp1 hp2 hp3 hp4]

/-- C2 counterexample: with one assistant line producing the text `"hi"`, exit
code 1 and stderr `" boom "`, `iter_events` emits both the assistant text
event and the error event — the claim asserts that no error event is emitted
once assistant text has been produced. -/
theorem c2_error_suppression_counterexample :
    StreamEvent.text ("hi".toList) ∈
        iter_events [Line.obj none strAssistant [⟨strText, "hi".toList⟩] none []] 1 (" boom ".toList) ∧
    StreamEvent.error ("boom".toList) ∈
        iter_events [Line.obj none strAssistant [⟨strText, "hi".toList⟩] none []] 1 (" boom ".toList) := by
  decide

/-- C2 (amended): `iter_events` surfaces the captured stderr as exactly one
`error` event precisely when the exit code is non-zero and the stripped
stderr text is non-empty, regardless of whether assistant text events were
already produced on the stream.  (The suppression after partial success
described by the spec is performed by the consumer in `app.py`, line 566, not
by `iter_events`.) -/
theorem c2_error_surfacing_amended (lines : List Line) (rc : Int) (stderrText : Str) :
    (iter_events lines rc stderrText).countP isErrorEvt =
      (if rc ≠ 0 ∧ pyStrip stderrText ≠ [] then 1 else 0) := by
  have h := iter_loop_countP isErrorEvt (fun _ => rfl) (fun _ => rfl) (fun _ => rfl) (fun _ => rfl)
      lines (⟨none, []⟩, [])
  simp only [List.countP_nil] at h
  simp only [iter_events, iter_events_loop]
  by_cases hc : rc ≠ 0 ∧ pyStrip stderrText ≠ []
  · simp only [if_pos hc]
    simp [List.countP_append, List.countP_cons, isErrorEvt, h]
  · simp only [if_neg hc]
    simp [List.countP_append, List.countP_cons, isErrorEvt, h]

/-- Rank of the session variable: 1 once it holds a truthy id, else 0. -/
def rankSess (sv : Option Str) : Nat := if truthyOptStr sv then 1 else 0

theorem rankSess_le_one (sv : Option Str) : rankSess sv ≤ 1 := by
  unfold rankSess
  split <;> omega

/-- One line's non-empty `session_id` events advance the session-variable
rank exactly. -/
theorem process_line_nonempty_session (st : IterState) (l : Line) :
    rankSess st.sessionVar + ((process_line st l).2).countP isNonemptySessionEvt
      = rankSess (process_line st l).1.sessionVar := by
  cases l with
  | blank => simp [process_line]
  | malformed => simp [process_line]
  | obj sid etype content toolSub toolDesc =>
    have hc := content_fold_countP isNonemptySessionEvt (fun _ => rfl) (fun _ => rfl)
        content (st.accumulated, [])
    unfold process_line
    by_cases ht : truthyOptStr st.sessionVar = false <;>
      cases sid <;> repeat' split
    all_goals simp_all [rankSess, List.countP_append, List.countP_cons, isNonemptySessionEvt,
      truthyOptStr]

/-- Loop invariant: non-empty `session_id` events emitted so far track the
session-variable rank. -/
theorem iter_loop_nonempty_session :
    ∀ (lines : List Line) (start : IterState × List StreamEvent),
      rankSess start.1.sessionVar +
          ((lines.foldl iter_fold_step start).2).countP isNonemptySessionEvt
        = rankSess ((lines.foldl iter_fold_step start).1).sessionVar +
            start.2.countP isNonemptySessionEvt := by
  intro lines
  induction lines with
  | nil => intro start; simp
  | cons l rest ih =>
    intro start
    rw [List.foldl_cons]
    have hline := process_line_nonempty_session start.1 l
    have hrec := ih (iter_fold_step start l)
    simp only [iter_fold_step, List.countP_append] at hrec ⊢
    omega

/-- Truthiness of a line's `session_id` field value (vacuously true when the
field is absent or the line is skipped). -/
def lineSidTruthy : Line → Bool
  | Line.obj (some v) _ _ _ _ => !v.isEmpty
  | _ => true

/-- One line's `session_id` events (of any payload) advance the rank exactly,
provided the line's session id — if present — is truthy, and the variable is
never left holding an empty id. -/
theorem process_line_session_truthy (st : IterState) (l : Line)
    (hl : lineSidTruthy l = true)
    (hst : st.sessionVar = none ∨ truthyOptStr st.sessionVar = true) :
    ((process_line st l).1.sessionVar = none ∨
        truthyOptStr (process_line st l).1.sessionVar = true) ∧
      rankSess st.sessionVar + ((process_line st l).2).countP isSessionEvt
        = rankSess (process_line st l).1.sessionVar := by
  cases l with
  | blank => simp [process_line, hst]
  | malformed => simp [process_line, hst]
  | obj sid etype content toolSub toolDesc =>
    have hc := content_fold_countP isSessionEvt (fun _ => rfl) (fun _ => rfl)
        content (st.accumulated, [])
    unfold process_line
    unfold lineSidTruthy at hl
    by_cases ht : truthyOptStr st.sessionVar = false <;>
      cases sid <;> repeat' split
    all_goals simp_all [rankSess, List.countP_append, List.countP_cons, isSessionEvt, truthyOptStr]

/-- Loop invariant for all-truthy streams: total `session_id` events track
the session-variable rank. -/
theorem iter_loop_session_truthy :
    ∀ (lines : List Line) (start : IterState × List StreamEvent),
      (∀ l ∈ lines, lineSidTruthy l = true) →
      (start.1.sessionVar = none ∨ truthyOptStr start.1.sessionVar = true) →
      rankSess start.1.sessionVar + ((lines.foldl iter_fold_step start).2).countP isSessionEvt
        = rankSess ((lines.foldl iter_fold_step start).1).sessionVar +
            start.2.countP isSessionEvt := by
  intro lines
  induction lines with
  | nil => intro start _ _; simp
  | cons l rest ih =>
    intro start hall hst
    rw [List.foldl_cons]
    have hline := process_line_session_truthy start.1 l (hall l (by simp)) hst
    have hrec := ih (iter_fold_step start l) (fun x hx => hall x (by simp [hx])) (by
      simpa [iter_fold_step] using hline.1)
    simp only [iter_fold_step, List.countP_append] at hrec ⊢
    have := hline.2
    omega

/-- C6 counterexample: a first line carrying the empty-string session id
(falsy in Python, so `if not session_id` stays true) followed by a line with
a real id makes `iter_events` emit two `session_id` events, contradicting the
at-most-once claim. -/
theorem c6_session_at_most_once_counterexample :
    (iter_events [Line.obj (some []) [] [] none [],
                  Line.obj (some ("s".toList)) [] [] none []] 0 []).countP isSessionEvt = 2 := by
  decide

/-- C6 (amended): over any decoded stream, `iter_events` emits at most one
`session_id` event carrying a non-empty id; and on any stream all of whose
`session_id` field values are non-empty (truthy) — the condition the Python
check `if not session_id` actually tests — it emits at most one `session_id`
event of any kind. -/
theorem c6_session_at_most_once_amended (lines : List Line) (rc : Int) (stderrText : Str) :
    (iter_events lines rc stderrText).countP isNonemptySessionEvt ≤ 1 ∧
    ((∀ l ∈ lines, lineSidTruthy l = true) →
      (iter_events lines rc stderrText).countP isSessionEvt ≤ 1) := by
  constructor
  · have h := iter_loop_nonempty_session lines (⟨none, []⟩, [])
    simp only [List.countP_nil, Nat.add_zero] at h
    rw [show rankSess (none : Option Str) = 0 from rfl, Nat.zero_add] at h
    have hle := rankSess_le_one ((lines.foldl iter_fold_step (⟨none, []⟩, [])).1).sessionVar
    simp only [iter_events, iter_events_loop]
    by_cases hc : rc ≠ 0 ∧ pyStrip stderrText ≠ []
    · simp only [if_pos hc]
      simp [List.countP_append, List.countP_cons, isNonemptySessionEvt]
      omega
    · simp only [if_neg hc]
      simp [List.countP_append, List.countP_cons, isNonemptySessionEvt]
      omega
  · intro hall
    have h := iter_loop_session_truthy lines (⟨none, []⟩, []) hall (Or.inl rfl)
    simp only [List.countP_nil, Nat.add_zero] at h
    rw [show rankSess (none : Option Str) = 0 from rfl, Nat.zero_add] at h
    have hle := rankSess_le_one ((lines.foldl iter_fold_step (⟨none, []⟩, [])).1).sessionVar
    simp only [iter_events, iter_events_loop]
    by_cases hc : rc ≠ 0 ∧ pyStrip stderrText ≠ []
    · simp only [if_pos hc]
      simp [List.countP_append, List.countP_cons, isSessionEvt]
      omega
    · simp only [if_neg hc]
      simp [List.countP_append, List.countP_cons, isSessionEvt]
      omega

/-- C6 (amended) witness: a stream with one truthy session id. -/
theorem c6_session_at_most_once_amended_witness :
    (∀ l ∈ [Line.obj (some ("s".toList)) [] [] none []], lineSidTruthy l = true) ∧
    (iter_events [Line.obj (some ("s".toList)) [] [] none []] 0 []).countP isSessionEvt ≤ 1 :=
  ⟨by decide,
   (c6_session_at_most_once_amended [Line.obj (some ("s".toList)) [] [] none []] 0 []).2
     (by decide)⟩

/-! ## Process Supervisor — `cursor_cli.create_process`, lines 89–130

The body of `create_process` builds the argument list (pure), then runs a
`try` block containing `subprocess.Popen`, `process.stdin.write(prompt)` and
`process.stdin.close()`, with a single `except FileNotFoundError` clause.
The environment (PATH contents, file permissions, working directory, OS
state) determines whether those calls succeed or raise, so the model takes
their outcomes as an explicit parameter; a propagated (uncaught) exception is
an `Except.error` result of the model. -/

/-- Python exception classes relevant to spawning: `FileNotFoundError`, and
every other exception (`PermissionError`, `NotADirectoryError`,
`BrokenPipeError`, …) abstracted by its name. -/
inductive PyExc where
  | fileNotFoundError
  | otherError (name : Str)
deriving DecidableEq, Repr

/-- Outcomes of the side-effecting statements inside the `try` block: the
`subprocess.Popen(args, ...)` call (returns a process handle or raises) and
the `stdin.write`/`stdin.close` pair. -/
structure SpawnEnv where
  popenResult : Except PyExc Nat
  stdinResult : Except PyExc Unit

/-- The not-found message `_NOT_FOUND_MSG` (`cursor_cli.py` lines 78–86). -/
def NOT_FOUND_MSG : Str :=
  ("Cursor CLI (`agent`) not found.\n\nIf you already installed and logged in in another terminal, set the full path so this app can find it (e.g. in the same terminal before running Streamlit):\n\n**PowerShell:** `$env:INSTRUMENT_AGENT_PATH = \"C:\\path\\to\\agent.exe\"`\n\nTo find where `agent` is: in a terminal where `agent` works, run `(Get-Command agent).Source` (PowerShell) or `where agent` (CMD).\n\nOtherwise install: `irm \x27https://cursor.com/install?win32=true\x27 | iex` then `agent login`.").toList

/-- `create_process` (`cursor_cli.py` lines 114–130): run the `try` body —
`Popen`, then `stdin.write` + `stdin.close`, then `return process, None` —
and convert a raised `FileNotFoundError` (and only that class) into the
`(None, _NOT_FOUND_MSG)` return value; any other exception propagates. -/
def create_process (env : SpawnEnv) : Except PyExc (Option Nat × Option Str) :=
  let body : Except PyExc (Option Nat × Option Str) :=
    match env.popenResult with
    | Except.error e => Except.error e
    | Except.ok h =>
      match env.stdinResult with
      | Except.error e => Except.error e
      | Except.ok _ => Except.ok (some h, none)
  match body with
  | Except.ok r => Except.ok r
  | Except.error PyExc.fileNotFoundError => Except.ok (none, some NOT_FOUND_MSG)
  | Except.error e => Except.error e

/-- C3 counterexample: when `Popen` raises `PermissionError` (for example the
resolved agent path exists but is not executable), `create_process` lets the
exception propagate instead of returning a typed error value — the claim
asserts it never raises. -/
theorem c3_spawn_counterexample :
    ¬ ∃ res, create_process
        ⟨Except.error (PyExc.otherError ("PermissionError".toList)), Except.ok ()⟩
        = Except.ok res := by
  simp [create_process]

/-- C3 (amended): `create_process` never lets `FileNotFoundError` escape —
that failure, and only that one, is converted to the `(None, _NOT_FOUND_MSG)`
return value — and returns `(process, None)` when spawning succeeds; every
other exception raised while spawning propagates to the caller unhandled. -/
theorem c3_spawn_amended (env : SpawnEnv) :
    create_process env ≠ Except.error PyExc.fileNotFoundError ∧
    (env.popenResult = Except.error PyExc.fileNotFoundError →
      create_process env = Except.ok (none, some NOT_FOUND_MSG)) ∧
    (∀ h, env.popenResult = Except.ok h → env.stdinResult = Except.ok () →
      create_process env = Except.ok (some h, none)) ∧
    (∀ e, e ≠ PyExc.fileNotFoundError → env.popenResult = Except.error e →
      create_process env = Except.error e) := by
  obtain ⟨p, s⟩ := env
  cases p with
  | ok h =>
    cases s with
    | ok u => simp [create_process]
    | error e => cases e <;> simp [create_process]
  | error e =>
    cases e with
    | fileNotFoundError =>
      simp [create_process]
      exact fun e he h => he h.symm
    | otherError n => simp [create_process]

/-- C3 (amended) witness: the not-found conversion, a successful spawn, and a
propagating `PermissionError`, each evaluated concretely. -/
theorem c3_spawn_amended_witness :
    (create_process ⟨Except.error PyExc.fileNotFoundError, Except.ok ()⟩
        = Except.ok (none, some NOT_FOUND_MSG)) ∧
    (create_process ⟨Except.ok 7, Except.ok ()⟩ = Except.ok (some 7, none)) ∧
    (create_process ⟨Except.error (PyExc.otherError ("PermissionError".toList)), Except.ok ()⟩
        = Except.error (PyExc.otherError ("PermissionError".toList))) :=
  ⟨(c3_spawn_amended ⟨Except.error PyExc.fileNotFoundError, Except.ok ()⟩).2.1 rfl,
   (c3_spawn_amended ⟨Except.ok 7, Except.ok ()⟩).2.2.1 7 rfl rfl,
   (c3_spawn_amended ⟨Except.error (PyExc.otherError ("PermissionError".toList)),
      Except.ok ()⟩).2.2.2 (PyExc.otherError ("PermissionError".toList)) (by simp) rfl⟩

/-! ## Diagnostic State Machine — `memory.DiagnosticState` and
`memory.extract_state_updates`, lines 89–190

The four regular expressions (`_LOG_FILE_RE`, `_ROOT_CAUSE_RE`,
`_HYPOTHESIS_RE`, `_FINDING_RE`) are abstracted as oracle lists of the
capture groups their `finditer` calls produce over the response, in document
order; every theorem below holds for every possible value of these lists, in
particular for the real matcher.  Everything after the match lists —
stripping, length guards, deduplicated appends, status transitions — is
translated from the source. -/

def strIdle : Str := "idle".toList
def strInvestigating : Str := "investigating".toList
def strResolved : Str := "resolved".toList

/-- `memory.DiagnosticState` (lines 89–100).  `status` is a Python string
`"idle" | "investigating" | "resolved"`. -/
structure DiagnosticState where
  device_ip : Option Str
  device_name : Option Str
  last_log_file : Option Str
  downloaded_logs : List Str
  findings : List Str
  hypotheses : List Str
  root_causes : List Str
  status : Str
deriving DecidableEq, Repr

/-- The dataclass's default field values. -/
def defaultDiagnosticState : DiagnosticState :=
  ⟨none, none, none, [], [], [], [], strIdle⟩

/-- The capture groups of the four extraction regexes over one response. -/
structure RegexMatches where
  log_files : List Str
  root_cause_caps : List Str
  hypothesis_caps : List Str
  finding_caps : List Str
deriving DecidableEq, Repr

/-- One `_LOG_FILE_RE` match (`memory.py` lines 164–168): appended to
`downloaded_logs` if not already present, and then also recorded as
`last_log_file`. -/
def upd_log (st : DiagnosticState) (log_name : Str) : DiagnosticState :=
  if log_name ∉ st.downloaded_logs then
    { st with downloaded_logs := st.downloaded_logs ++ [log_name],
              last_log_file := some log_name }
  else st

/-- One `_ROOT_CAUSE_RE` capture (lines 170–173): stripped, trailing dots
removed, kept when `20 < len < 200` and not a duplicate. -/
def upd_root_cause (st : DiagnosticState) (cap : Str) : DiagnosticState :=
  if 20 < (pyRstripDot (pyStrip cap)).length ∧ (pyRstripDot (pyStrip cap)).length < 200 ∧
      pyRstripDot (pyStrip cap) ∉ st.root_causes then
    { st with root_causes := st.root_causes ++ [pyRstripDot (pyStrip cap)] }
  else st

/-- One `_HYPOTHESIS_RE` capture (lines 175–178): kept when `10 < len < 200`
and not a duplicate. -/
def upd_hypothesis (st : DiagnosticState) (cap : Str) : DiagnosticState :=
  if 10 < (pyRstripDot (pyStrip cap)).length ∧ (pyRstripDot (pyStrip cap)).length < 200 ∧
      pyRstripDot (pyStrip cap) ∉ st.hypotheses then
    { st with hypotheses := st.hypotheses ++ [pyRstripDot (pyStrip cap)] }
  else st

/-- One `_FINDING_RE` capture (lines 180–183): kept when `10 < len < 200`
and not a duplicate. -/
def upd_finding (st : DiagnosticState) (cap : Str) : DiagnosticState :=
  if 10 < (pyRstripDot (pyStrip cap)).length ∧ (pyRstripDot (pyStrip cap)).length < 200 ∧
      pyRstripDot (pyStrip cap) ∉ st.findings then
    { st with findings := st.findings ++ [pyRstripDot (pyStrip cap)] }
  else st

/-- The four extraction loops of `extract_state_updates` (lines 164–183). -/
def extract_lists (ms : RegexMatches) (state : DiagnosticState) : DiagnosticState :=
  ms.finding_caps.foldl upd_finding
    (ms.hypothesis_caps.foldl upd_hypothesis
      (ms.root_cause_caps.foldl upd_root_cause
        (ms.log_files.foldl upd_log state)))

/-- The status transitions of `extract_state_updates` (lines 185–188):
`if state.device_ip and state.status == "idle"` (Python truthiness of
`device_ip`), then `if state.root_causes and state.status ==
"investigating"`. -/
def extract_status_first (st : DiagnosticState) : DiagnosticState :=
  if truthyOptStr st.device_ip = true ∧ st.status = strIdle then
    { st with status := strInvestigating }
  else st

/-- Both status transitions in sequence (lines 185–188). -/
def extract_status (st : DiagnosticState) : DiagnosticState :=
  if (extract_status_first st).root_causes ≠ [] ∧
      (extract_status_first st).status = strInvestigating then
    { extract_status_first st with status := strResolved }
  else extract_status_first st

/-- `memory.extract_state_updates` (lines 158–190) as a value-level function:
the list extractions followed by the status transitions. -/
def extract_state_updates (ms : RegexMatches) (state : DiagnosticState) : DiagnosticState :=
  extract_status (extract_lists ms state)

/-- Observable effect of one Python call `extract_state_updates(response,
state)` on the caller: the function mutates the `state` object in place
(list `append`s and attribute assignments on its parameter) and then
`return state` hands back that same object, so after the call the caller's
object and the returned object are one and the same and both hold the
updated value. -/
structure CallEffect where
  argAfterCall : DiagnosticState
  returned : DiagnosticState
deriving DecidableEq, Repr

/-- The call-level model of `extract_state_updates`: the caller's `state`
object holds the updated value after the call, and the same object is
returned. -/
def extract_state_updates_call (ms : RegexMatches) (state : DiagnosticState) : CallEffect :=
  ⟨extract_state_updates ms state, extract_state_updates ms state⟩

/-- C4 counterexample: calling the extractor on a response containing the log
filename `InstrumentA_2024-01-02_12-00-00.log` (one `_LOG_FILE_RE` match)
starting from the default state leaves the caller's `state` object modified —
its `downloaded_logs` gained an entry — contradicting the claim that the
prior state value passed in is left unmodified. -/
theorem c4_extract_purity_counterexample :
    (extract_state_updates_call
        ⟨[("InstrumentA_2024-01-02_12-00-00.log".toList)], [], [], []⟩
        defaultDiagnosticState).argAfterCall ≠ defaultDiagnosticState := by
  decide

/-- C4 (amended): `extract_state_updates` is not pure in its state argument:
it updates the passed-in state object in place, and the object returned is
that very argument — after any call the caller's object and the return value
coincide and both equal the functional update of the input. -/
theorem c4_extract_in_place (ms : RegexMatches) (state : DiagnosticState) :
    (extract_state_updates_call ms state).argAfterCall
        = (extract_state_updates_call ms state).returned ∧
    (extract_state_updates_call ms state).returned = extract_state_updates ms state :=
  ⟨rfl, rfl⟩

/-- Fields preserved and deduplication kept by one `upd_log` step. -/
theorem upd_log_spec (st : DiagnosticState) (a : Str) :
    (upd_log st a).status = st.status ∧ (upd_log st a).device_ip = st.device_ip ∧
    (upd_log st a).findings = st.findings ∧ (upd_log st a).hypotheses = st.hypotheses ∧
    (upd_log st a).root_causes = st.root_causes ∧
    (st.downloaded_logs.Nodup → (upd_log st a).downloaded_logs.Nodup) := by
  unfold upd_log
  split_ifs with h
  · exact ⟨rfl, rfl, rfl, rfl, rfl, fun hn => by simp_all [List.nodup_append]⟩
  · exact ⟨rfl, rfl, rfl, rfl, rfl, fun hn => by simp_all [List.nodup_append]⟩

/-- Fields preserved and deduplication kept by one `upd_root_cause` step. -/
theorem upd_root_cause_spec (st : DiagnosticState) (a : Str) :
    (upd_root_cause st a).status = st.status ∧ (upd_root_cause st a).device_ip = st.device_ip ∧
    (upd_root_cause st a).downloaded_logs = st.downloaded_logs ∧
    (upd_root_cause st a).findings = st.findings ∧
    (upd_root_cause st a).hypotheses = st.hypotheses ∧
    (st.root_causes.Nodup → (upd_root_cause st a).root_causes.Nodup) := by
  unfold upd_root_cause
  split_ifs with h
  · exact ⟨rfl, rfl, rfl, rfl, rfl, fun hn => by simp_all [List.nodup_append]⟩
  · exact ⟨rfl, rfl, rfl, rfl, rfl, fun hn => by simp_all [List.nodup_append]⟩

/-- Fields preserved and deduplication kept by one `upd_hypothesis` step. -/
theorem upd_hypothesis_spec (st : DiagnosticState) (a : Str) :
    (upd_hypothesis st a).status = st.status ∧ (upd_hypothesis st a).device_ip = st.device_ip ∧
    (upd_hypothesis st a).downloaded_logs = st.downloaded_logs ∧
    (upd_hypothesis st a).findings = st.findings ∧
    (upd_hypothesis st a).root_causes = st.root_causes ∧
    (st.hypotheses.Nodup → (upd_hypothesis st a).hypotheses.Nodup) := by
  unfold upd_hypothesis
  split_ifs with h
  · exact ⟨rfl, rfl, rfl, rfl, rfl, fun hn => by simp_all [List.nodup_append]⟩
  · exact ⟨rfl, rfl, rfl, rfl, rfl, fun hn => by simp_all [List.nodup_append]⟩

/-- Fields preserved and deduplication kept by one `upd_finding` step. -/
theorem upd_finding_spec (st : DiagnosticState) (a : Str) :
    (upd_finding st a).status = st.status ∧ (upd_finding st a).device_ip = st.device_ip ∧
    (upd_finding st a).downloaded_logs = st.downloaded_logs ∧
    (upd_finding st a).hypotheses = st.hypotheses ∧
    (upd_finding st a).root_causes = st.root_causes ∧
    (st.findings.Nodup → (upd_finding st a).findings.Nodup) := by
  unfold upd_finding
  split_ifs with h
  · exact ⟨rfl, rfl, rfl, rfl, rfl, fun hn => by simp_all [List.nodup_append]⟩
  · exact ⟨rfl, rfl, rfl, rfl, rfl, fun hn => by simp_all [List.nodup_append]⟩

/-- The log-file loop: preserved fields and deduplication. -/
theorem fold_log_spec :
    ∀ (l : List Str) (st : DiagnosticState),
      (l.foldl upd_log st).status = st.status ∧
      (l.foldl upd_log st).device_ip = st.device_ip ∧
      (l.foldl upd_log st).findings = st.findings ∧
      (l.foldl upd_log st).hypotheses = st.hypotheses ∧
      (l.foldl upd_log st).root_causes = st.root_causes ∧
      (st.downloaded_logs.Nodup → (l.foldl upd_log st).downloaded_logs.Nodup) := by
  intro l
  induction l with
  | nil => intro st; exact ⟨rfl, rfl, rfl, rfl, rfl, id⟩
  | cons a rest ih =>
    intro st
    rw [List.foldl_cons]
    obtain ⟨u1, u2, u3, u4, u5, u6⟩ := upd_log_spec st a
    obtain ⟨i1, i2, i3, i4, i5, i6⟩ := ih (upd_log st a)
    exact ⟨i1.trans u1, i2.trans u2, i3.trans u3, i4.trans u4, i5.trans u5,
      fun hn => i6 (u6 hn)⟩

/-- The root-cause loop: preserved fields and deduplication. -/
theorem fold_root_cause_spec :
    ∀ (l : List Str) (st : DiagnosticState),
      (l.foldl upd_root_cause st).status = st.status ∧
      (l.foldl upd_root_cause st).device_ip = st.device_ip ∧
      (l.foldl upd_root_cause st).downloaded_logs = st.downloaded_logs ∧
      (l.foldl upd_root_cause st).findings = st.findings ∧
      (l.foldl upd_root_cause st).hypotheses = st.hypotheses ∧
      (st.root_causes.Nodup → (l.foldl upd_root_cause st).root_causes.Nodup) := by
  intro l
  induction l with
  | nil => intro st; exact ⟨rfl, rfl, rfl, rfl, rfl, id⟩
  | cons a rest ih =>
    intro st
    rw [List.foldl_cons]
    obtain ⟨u1, u2, u3, u4, u5, u6⟩ := upd_root_cause_spec st a
    obtain ⟨i1, i2, i3, i4, i5, i6⟩ := ih (upd_root_cause st a)
    exact ⟨i1.trans u1, i2.trans u2, i3.trans u3, i4.trans u4, i5.trans u5,
      fun hn => i6 (u6 hn)⟩

/-- The hypothesis loop: preserved fields and deduplication. -/
theorem fold_hypothesis_spec :
    ∀ (l : List Str) (st : DiagnosticState),
      (l.foldl upd_hypothesis st).status = st.status ∧
      (l.foldl upd_hypothesis st).device_ip = st.device_ip ∧
      (l.foldl upd_hypothesis st).downloaded_logs = st.downloaded_logs ∧
      (l.foldl upd_hypothesis st).findings = st.findings ∧
      (l.foldl upd_hypothesis st).root_causes = st.root_causes ∧
      (st.hypotheses.Nodup → (l.foldl upd_hypothesis st).hypotheses.Nodup) := by
  intro l
  induction l with
  | nil => intro st; exact ⟨rfl, rfl, rfl, rfl, rfl, id⟩
  | cons a rest ih =>
    intro st
    rw [List.foldl_cons]
    obtain ⟨u1, u2, u3, u4, u5, u6⟩ := upd_hypothesis_spec st a
    obtain ⟨i1, i2, i3, i4, i5, i6⟩ := ih (upd_hypothesis st a)
    exact ⟨i1.trans u1, i2.trans u2, i3.trans u3, i4.trans u4, i5.trans u5,
      fun hn => i6 (u6 hn)⟩

/-- The finding loop: preserved fields and deduplication. -/
theorem fold_finding_spec :
    ∀ (l : List Str) (st : DiagnosticState),
      (l.foldl upd_finding st).status = st.status ∧
      (l.foldl upd_finding st).device_ip = st.device_ip ∧
      (l.foldl upd_finding st).downloaded_logs = st.downloaded_logs ∧
      (l.foldl upd_finding st).hypotheses = st.hypotheses ∧
      (l.foldl upd_finding st).root_causes = st.root_causes ∧
      (st.findings.Nodup → (l.foldl upd_finding st).findings.Nodup) := by
  intro l
  induction l with
  | nil => intro st; exact ⟨rfl, rfl, rfl, rfl, rfl, id⟩
  | cons a rest ih =>
    intro st
    rw [List.foldl_cons]
    obtain ⟨u1, u2, u3, u4, u5, u6⟩ := upd_finding_spec st a
    obtain ⟨i1, i2, i3, i4, i5, i6⟩ := ih (upd_finding st a)
    exact ⟨i1.trans u1, i2.trans u2, i3.trans u3, i4.trans u4, i5.trans u5,
      fun hn => i6 (u6 hn)⟩

/-- The whole extraction phase: `status` and `device_ip` are untouched, and
each of the four lists stays duplicate-free. -/
theorem extract_lists_spec (ms : RegexMatches) (s : DiagnosticState) :
    (extract_lists ms s).status = s.status ∧
    (extract_lists ms s).device_ip = s.device_ip ∧
    (s.downloaded_logs.Nodup → (extract_lists ms s).downloaded_logs.Nodup) ∧
    (s.findings.Nodup → (extract_lists ms s).findings.Nodup) ∧
    (s.hypotheses.Nodup → (extract_lists ms s).hypotheses.Nodup) ∧
    (s.root_causes.Nodup → (extract_lists ms s).root_causes.Nodup) := by
  unfold extract_lists
  obtain ⟨a1, a2, a3, a4, a5, a6⟩ := fold_log_spec ms.log_files s
  obtain ⟨b1, b2, b3, b4, b5, b6⟩ :=
    fold_root_cause_spec ms.root_cause_caps (ms.log_files.foldl upd_log s)
  obtain ⟨c1, c2, c3, c4, c5, c6⟩ :=
    fold_hypothesis_spec ms.hypothesis_caps
      (ms.root_cause_caps.foldl upd_root_cause (ms.log_files.foldl upd_log s))
  obtain ⟨d1, d2, d3, d4, d5, d6⟩ :=
    fold_finding_spec ms.finding_caps
      (ms.hypothesis_caps.foldl upd_hypothesis
        (ms.root_cause_caps.foldl upd_root_cause (ms.log_files.foldl upd_log s)))
  refine ⟨?_, ?_, ?_, ?_, ?_, ?_⟩
  · exact ((d1.trans c1).trans b1).trans a1
  · exact ((d2.trans c2).trans b2).trans a2
  · intro hn
    rw [d3, c3, b3]
    exact a6 hn
  · intro hn
    exact d6 (by rw [c4, b4, a3]; exact hn)
  · intro hn
    rw [d4]
    exact c6 (by rw [b5, a4]; exact hn)
  · intro hn
    rw [d5, c5]
    exact b6 (by rw [a5]; exact hn)

/-- Rank of a status string for the monotonicity claim: unknown strings rank
lowest. -/
def statusRank (s : Str) : Nat :=
  if s = strResolved then 2 else if s = strInvestigating then 1 else 0

/-- The status phase: lists untouched, rank never decreases, and the two
documented transitions fire. -/
theorem statusRank_le_two (s : Str) : statusRank s ≤ 2 := by
  unfold statusRank
  split_ifs <;> omega

/-- The first status transition: lists untouched, rank never decreases,
`idle → investigating` when the device ip is truthy, and an investigating
status stays investigating. -/
theorem extract_status_first_spec (st : DiagnosticState) :
    (extract_status_first st).downloaded_logs = st.downloaded_logs ∧
    (extract_status_first st).findings = st.findings ∧
    (extract_status_first st).hypotheses = st.hypotheses ∧
    (extract_status_first st).root_causes = st.root_causes ∧
    statusRank st.status ≤ statusRank (extract_status_first st).status ∧
    (truthyOptStr st.device_ip = true → st.status = strIdle →
      (extract_status_first st).status = strInvestigating) ∧
    (st.status = strInvestigating → (extract_status_first st).status = strInvestigating) := by
  unfold extract_status_first
  split_ifs with h5
  · refine ⟨rfl, rfl, rfl, rfl, ?_, fun _ _ => rfl, fun _ => rfl⟩
    rw [h5.2]
    show statusRank strIdle ≤ statusRank strInvestigating
    decide
  · exact ⟨rfl, rfl, rfl, rfl, le_refl _,
      fun hip hidle => absurd ⟨hip, hidle⟩ h5, fun hinv => hinv⟩

/-- The status phase: lists untouched, rank never decreases, and the two
documented transitions fire. -/
theorem extract_status_spec (st : DiagnosticState) :
    (extract_status st).downloaded_logs = st.downloaded_logs ∧
    (extract_status st).findings = st.findings ∧
    (extract_status st).hypotheses = st.hypotheses ∧
    (extract_status st).root_causes = st.root_causes ∧
    statusRank st.status ≤ statusRank (extract_status st).status ∧
    (truthyOptStr st.device_ip = true → st.status = strIdle →
      ((extract_status st).status = strInvestigating ∨
       (extract_status st).status = strResolved)) ∧
    (st.status = strInvestigating → st.root_causes ≠ [] →
      (extract_status st).status = strResolved) := by
  obtain ⟨f1, f2, f3, f4, f5, f6, f7⟩ := extract_status_first_spec st
  unfold extract_status
  split_ifs with h6
  · refine ⟨f1, f2, f3, f4, ?_, fun _ _ => Or.inr rfl, fun _ _ => rfl⟩
    have h2 := statusRank_le_two st.status
    simpa [statusRank] using h2
  · refine ⟨f1, f2, f3, f4, f5, fun hip hidle => Or.inl (f6 hip hidle), fun hinv hne => ?_⟩
    exact absurd ⟨by rw [f4]; exact hne, f7 hinv⟩ h6

/-- C7: under `extract_state_updates`, `status` never transitions backward
(its rank `idle/unknown < investigating < resolved` never decreases); it
moves `idle → investigating` (or directly on to `resolved`) once `device_ip`
is known (truthy), and `investigating → resolved` once any root cause is
recorded; and starting from duplicate-free lists — in particular after
repeated extraction over the same response text, whose match lists are the
same each time — `downloaded_logs`, `findings`, `hypotheses` and
`root_causes` stay free of duplicate entries. -/
theorem c7_diagnostic_monotonicity (ms : RegexMatches) (s : DiagnosticState)
    (h1 : s.downloaded_logs.Nodup) (h2 : s.findings.Nodup)
    (h3 : s.hypotheses.Nodup) (h4 : s.root_causes.Nodup) :
    statusRank s.status ≤ statusRank (extract_state_updates ms s).status ∧
    (truthyOptStr s.device_ip = true → s.status = strIdle →
      ((extract_state_updates ms s).status = strInvestigating ∨
       (extract_state_updates ms s).status = strResolved)) ∧
    (s.status = strInvestigating → (extract_state_updates ms s).root_causes ≠ [] →
      (extract_state_updates ms s).status = strResolved) ∧
    (extract_state_updates ms s).downloaded_logs.Nodup ∧
    (extract_state_updates ms s).findings.Nodup ∧
    (extract_state_updates ms s).hypotheses.Nodup ∧
    (extract_state_updates ms s).root_causes.Nodup := by
  obtain ⟨hLs, hLip, hN1, hN2, hN3, hN4⟩ := extract_lists_spec ms s
  obtain ⟨e1, e2, e3, e4, e5, e6, e7⟩ := extract_status_spec (extract_lists ms s)
  unfold extract_state_updates
  refine ⟨?_, ?_, ?_, ?_, ?_, ?_, ?_⟩
  · rw [← hLs]
    exact e5
  · intro hip hidle
    exact e6 (by rw [hLip]; exact hip) (by rw [hLs]; exact hidle)
  · intro hinv hne
    rw [e4] at hne
    exact e7 (by rw [hLs]; exact hinv) hne
  · rw [e1]
    exact hN1 h1
  · rw [e2]
    exact hN2 h2
  · rw [e3]
    exact hN3 h3
  · rw [e4]
    exact hN4 h4

/-- C7 witness: one extraction pass over a response carrying a root cause of
admissible length, from an investigating state with a known device ip. -/
theorem c7_diagnostic_monotonicity_witness :
    ((defaultDiagnosticState : DiagnosticState).downloaded_logs.Nodup ∧
     (defaultDiagnosticState : DiagnosticState).findings.Nodup ∧
     (defaultDiagnosticState : DiagnosticState).hypotheses.Nodup ∧
     (defaultDiagnosticState : DiagnosticState).root_causes.Nodup) ∧
    ((extract_state_updates
        ⟨[], [("Sensor wire disconnected at J4 left".toList)], [], []⟩
        defaultDiagnosticState).downloaded_logs.Nodup ∧
     (extract_state_updates
        ⟨[], [("Sensor wire disconnected at J4 left".toList)], [], []⟩
        defaultDiagnosticState).root_causes.Nodup) :=
  ⟨⟨List.nodup_nil, List.nodup_nil, List.nodup_nil, List.nodup_nil⟩,
   ⟨(c7_diagnostic_monotonicity _ defaultDiagnosticState List.nodup_nil List.nodup_nil
       List.nodup_nil List.nodup_nil).2.2.2.1,
    (c7_diagnostic_monotonicity ⟨[], [("Sensor wire disconnected at J4 left".toList)], [], []⟩
       defaultDiagnosticState List.nodup_nil List.nodup_nil
       List.nodup_nil List.nodup_nil).2.2.2.2.2.2⟩⟩

/-! ## Rolling summary and memory partition — `memory.py` lines 28–84 and
195–215

`filter_content` (lines 33–38) performs three regex substitutions followed by
`strip()`; no claim depends on the substitutions, so the whole filter is
abstracted as a function parameter `F` — every theorem below holds for every
`F`, in particular the real one.  Everything downstream of the filter
(paragraph splitting, caps, role prefixes, joining, the size cap, the
recent/older partition) is translated from the source. -/

def strUser : Str := "user".toList
def strUserCap : Str := "User".toList
def strAssistantCap : Str := "Assistant".toList

/-- The horizontal-ellipsis character appended by truncation. -/
def hellip : Char := '…'

def RECENT_TURN_COUNT : Nat := 3
def MAX_SUMMARY_CHARS : Nat := 5000

/-- Python `s.split("\n\n")`: split on each non-overlapping occurrence of two
consecutive newlines. -/
def pySplit2NL : Str → List Str
  | [] => [[]]
  | '\n' :: '\n' :: rest => [] :: pySplit2NL rest
  | c :: rest =>
    match pySplit2NL rest with
    | [] => [[c]]
    | h :: t => (c :: h) :: t

example : pySplit2NL ("ab\n\ncd".toList) = [("ab".toList), ("cd".toList)] := by decide

/-- `[p.strip() for p in filtered.split("\n\n") if p.strip()]`
(`memory.py` line 48). -/
def pyParagraphs (s : Str) : List Str :=
  ((pySplit2NL s).map pyStrip).filter (fun p => p ≠ [])

/-- `memory.compress_message` (lines 41–55), with the content filter
abstracted as `F`. -/
def compress_message (F : Str → Str) (role content : Str) (max_chars : Nat) : Str :=
  if (F content).length ≤ max_chars then
    role ++ (": ".toList) ++ F content
  else if role = strAssistantCap then
    if 2 ≤ (pyParagraphs (F content)).length ∧
        ((pyParagraphs (F content)).headD [] ++ ("\n...\n".toList) ++
          (pyParagraphs (F content)).getLastD []).length ≤ max_chars then
      role ++ (": ".toList) ++
        ((pyParagraphs (F content)).headD [] ++ ("\n...\n".toList) ++
          (pyParagraphs (F content)).getLastD [])
    else role ++ (": ".toList) ++ (F content).take max_chars ++ [hellip]
  else role ++ (": ".toList) ++ (F content).take max_chars ++ [hellip]

/-- A conversation message: a `role` (`"user"` / `"assistant"`) and text. -/
structure Msg where
  role : Str
  content : Str
deriving DecidableEq, Repr

/-- Python `"\n".join(parts)`. -/
def joinNL : List Str → Str
  | [] => []
  | [p] => p
  | p :: q :: rest => p ++ '\n' :: joinNL (q :: rest)

/-- The `new_block` of `build_summary` (lines 70–74): each evicted turn
compressed with its display role. -/
def summary_new_block (F : Str → Str) (turns_to_compress : List Msg) : Str :=
  joinNL (turns_to_compress.map (fun msg =>
    compress_message F (if msg.role = strUser then strUserCap else strAssistantCap)
      msg.content 400))

/-- The `combined` text of `build_summary` (lines 76–79): the existing
summary, when truthy, is prepended with a newline separator. -/
def summary_combined (F : Str → Str) (existing_summary : Str) (turns_to_compress : List Msg) : Str :=
  if existing_summary ≠ [] then
    existing_summary ++ '\n' :: summary_new_block F turns_to_compress
  else summary_new_block F turns_to_compress

/-- `memory.build_summary` (lines 60–84): the combined text capped to
`MAX_SUMMARY_CHARS` by dropping its oldest characters, with a leading `…`
(`combined = "…" + combined[-(MAX_SUMMARY_CHARS - 1):]`). -/
def build_summary (F : Str → Str) (existing_summary : Str) (turns_to_compress : List Msg) : Str :=
  if MAX_SUMMARY_CHARS < (summary_combined F existing_summary turns_to_compress).length then
    hellip :: (summary_combined F existing_summary turns_to_compress).drop
      ((summary_combined F existing_summary turns_to_compress).length - (MAX_SUMMARY_CHARS - 1))
  else summary_combined F existing_summary turns_to_compress

/-- The partition step of `memory.build_prompt` (lines 207–215): `recent` is
the last `RECENT_TURN_COUNT * 2` messages when there are more than that,
`older` the rest, compressed into a fresh summary (`build_summary("",
older)`); otherwise `recent` is everything, `older` is empty, and the
existing summary is carried forward (`existing_summary or ""` is the
identity on strings).  Returns `(older, recent, updated_summary)`. -/
def build_prompt_partition (all_messages : List Msg) (existing_summary : Str)
    (F : Str → Str) : List Msg × List Msg × Str :=
  if RECENT_TURN_COUNT * 2 < all_messages.length then
    (all_messages.take (all_messages.length - RECENT_TURN_COUNT * 2),
     all_messages.drop (all_messages.length - RECENT_TURN_COUNT * 2),
     build_summary F [] (all_messages.take (all_messages.length - RECENT_TURN_COUNT * 2)))
  else
    ([], all_messages, existing_summary)

/-- Every compressed message is non-empty: it starts with its role prefix. -/
theorem compress_message_ne_nil (F : Str → Str) (role content : Str) (mc : Nat)
    (hrole : role ≠ []) : compress_message F role content mc ≠ [] := by
  unfold compress_message
  split_ifs <;> simp [hrole]

/-- The compressed block of a non-empty turn list is non-empty. -/
theorem summary_new_block_ne_nil (F : Str → Str) (turns : List Msg) (h : turns ≠ []) :
    summary_new_block F turns ≠ [] := by
  unfold summary_new_block
  cases turns with
  | nil => exact absurd rfl h
  | cons m rest =>
    have hm : compress_message F (if m.role = strUser then strUserCap else strAssistantCap)
        m.content 400 ≠ [] := by
      apply compress_message_ne_nil
      split_ifs <;> decide
    cases rest with
    | nil => simpa [joinNL] using hm
    | cons m2 rest2 =>
      simp only [List.map_cons, joinNL]
      intro hcontra
      rw [List.append_eq_nil] at hcontra
      exact List.cons_ne_nil _ _ hcontra.2

/-- The combined text of a non-empty turn list is non-empty. -/
theorem summary_combined_ne_nil (F : Str → Str) (ex : Str) (turns : List Msg)
    (h : turns ≠ []) : summary_combined F ex turns ≠ [] := by
  unfold summary_combined
  split_ifs with hex
  · intro hcontra
    rw [List.append_eq_nil] at hcontra
    exact List.cons_ne_nil _ _ hcontra.2
  · exact summary_new_block_ne_nil F turns h

/-- The rolling summary never exceeds `MAX_SUMMARY_CHARS`. -/
theorem build_summary_length_le (F : Str → Str) (ex : Str) (turns : List Msg) :
    (build_summary F ex turns).length ≤ MAX_SUMMARY_CHARS := by
  unfold build_summary
  split_ifs with h
  · simp only [List.length_cons, List.length_drop, MAX_SUMMARY_CHARS] at *
    omega
  · simp only [MAX_SUMMARY_CHARS] at *
    omega

/-- A capped summary of a non-empty combined text is non-empty. -/
theorem build_summary_ne_nil (F : Str → Str) (ex : Str) (turns : List Msg)
    (h : summary_combined F ex turns ≠ []) : build_summary F ex turns ≠ [] := by
  unfold build_summary
  split_ifs with hcap
  · exact List.cons_ne_nil _ _
  · exact h

/-- C8: for every existing summary and every list of turns to compress, the
string returned by `build_summary` has length at most `MAX_SUMMARY_CHARS`;
and whenever truncation occurs (the combined text exceeds the cap) the
retained text is exactly the most recent `MAX_SUMMARY_CHARS - 1` characters
of the combined text, preceded by the ellipsis marker — the oldest prefix is
dropped, never the newest suffix. -/
theorem c8_summary_size_invariant (F : Str → Str) (existing_summary : Str) (turns : List Msg) :
    (build_summary F existing_summary turns).length ≤ MAX_SUMMARY_CHARS ∧
    (MAX_SUMMARY_CHARS < (summary_combined F existing_summary turns).length →
      build_summary F existing_summary turns =
        hellip :: (summary_combined F existing_summary turns).drop
          ((summary_combined F existing_summary turns).length - (MAX_SUMMARY_CHARS - 1))) := by
  refine ⟨build_summary_length_le F existing_summary turns, fun h => ?_⟩
  unfold build_summary
  rw [if_pos h]

/-- C8 witness: a combined text of 6002 characters is capped to exactly 5000
characters, the retained part being its final 4999 characters. -/
theorem c8_summary_size_invariant_witness :
    (MAX_SUMMARY_CHARS < (summary_combined id ('b' :: List.replicate 6000 'a') []).length) ∧
    build_summary id ('b' :: List.replicate 6000 'a') [] =
      hellip :: (summary_combined id ('b' :: List.replicate 6000 'a') []).drop
        ((summary_combined id ('b' :: List.replicate 6000 'a') []).length -
          (MAX_SUMMARY_CHARS - 1)) := by
  have h0 : MAX_SUMMARY_CHARS < (summary_combined id ('b' :: List.replicate 6000 'a') []).length := by
    have hne : ('b' :: List.replicate 6000 'a' : Str) ≠ [] := List.cons_ne_nil _ _
    unfold summary_combined
    rw [if_pos hne]
    simp only [summary_new_block, List.map_nil, joinNL, List.length_append, List.length_cons,
      List.length_replicate, List.length_nil, MAX_SUMMARY_CHARS]
    omega
  exact ⟨h0, (c8_summary_size_invariant id ('b' :: List.replicate 6000 'a') []).2 h0⟩

/-- C9: when `all_messages` holds more than `2 × RECENT_TURN_COUNT` messages,
`recent` is exactly the last `2 × RECENT_TURN_COUNT` of them (and together
with `older` re-forms `all_messages`), and the older remainder is compressed
message-by-message into a non-empty updated summary capped at
`MAX_SUMMARY_CHARS`; with at most `2 × RECENT_TURN_COUNT` messages, `recent`
is all of them, `older` is empty, and the updated summary is the existing
summary unchanged. -/
theorem c9_memory_partition (F : Str → Str) (all_messages : List Msg) (existing_summary : Str) :
    (RECENT_TURN_COUNT * 2 < all_messages.length →
      (build_prompt_partition all_messages existing_summary F).2.1 =
          all_messages.drop (all_messages.length - RECENT_TURN_COUNT * 2) ∧
      (build_prompt_partition all_messages existing_summary F).2.1.length =
          RECENT_TURN_COUNT * 2 ∧
      (build_prompt_partition all_messages existing_summary F).1 =
          all_messages.take (all_messages.length - RECENT_TURN_COUNT * 2) ∧
      (build_prompt_partition all_messages existing_summary F).1 ++
          (build_prompt_partition all_messages existing_summary F).2.1 = all_messages ∧
      (build_prompt_partition all_messages existing_summary F).2.2 =
          build_summary F [] (build_prompt_partition all_messages existing_summary F).1 ∧
      (build_prompt_partition all_messages existing_summary F).2.2 ≠ [] ∧
      (build_prompt_partition all_messages existing_summary F).2.2.length ≤ MAX_SUMMARY_CHARS) ∧
    (all_messages.length ≤ RECENT_TURN_COUNT * 2 →
      (build_prompt_partition all_messages existing_summary F).2.1 = all_messages ∧
      (build_prompt_partition all_messages existing_summary F).1 = [] ∧
      (build_prompt_partition all_messages existing_summary F).2.2 = existing_summary) := by
  constructor
  · intro h
    have htake : all_messages.take (all_messages.length - RECENT_TURN_COUNT * 2) ≠ [] := by
      intro hcontra
      have hlen := congrArg List.length hcontra
      simp only [List.length_take, List.length_nil] at hlen
      simp only [RECENT_TURN_COUNT] at h hlen
      omega
    unfold build_prompt_partition
    rw [if_pos h]
    refine ⟨rfl, ?_, rfl, List.take_append_drop _ _, rfl, ?_, build_summary_length_le F [] _⟩
    · simp only [List.length_drop]
      simp only [RECENT_TURN_COUNT] at h ⊢
      omega
    · exact build_summary_ne_nil F [] _ (summary_combined_ne_nil F [] _ htake)
  · intro h
    unfold build_prompt_partition
    rw [if_neg (by omega)]
    exact ⟨rfl, rfl, rfl⟩

/-- C9 witness: eight messages with `RECENT_TURN_COUNT = 3` give a non-empty
fresh summary; two messages carry the existing summary forward unchanged. -/
theorem c9_memory_partition_witness :
    (RECENT_TURN_COUNT * 2 <
        (List.replicate 8 (⟨"user".toList, "q".toList⟩ : Msg)).length ∧
      (build_prompt_partition (List.replicate 8 (⟨"user".toList, "q".toList⟩ : Msg))
          [] id).2.2 ≠ []) ∧
    ((List.replicate 2 (⟨"user".toList, "q".toList⟩ : Msg)).length ≤ RECENT_TURN_COUNT * 2 ∧
      (build_prompt_partition (List.replicate 2 (⟨"user".toList, "q".toList⟩ : Msg))
          ("sum".toList) id).2.2 = "sum".toList) := by
  refine ⟨⟨by decide, ?_⟩, ⟨by decide, ?_⟩⟩
  · exact ((c9_memory_partition id
      (List.replicate 8 (⟨"user".toList, "q".toList⟩ : Msg)) []).1 (by decide)).2.2.2.2.2.1
  · exact ((c9_memory_partition id
      (List.replicate 2 (⟨"user".toList, "q".toList⟩ : Msg)) ("sum".toList)).2 (by decide)).2.2

/-! ## DiagnosticState serialization — `memory.py` lines 104–114

`serialize` is `json.dumps(asdict(self), ensure_ascii=False)`: the dataclass
dict has the eight fields in declaration order, with values of shapes
`None | str | list[str]`, printed with the default separators `", "` and
`": "`, strings escaped as Python's encoder does (quote, backslash and the
control characters; other characters verbatim since `ensure_ascii=False`).
`deserialize` is `cls(**json.loads(raw))` guarded by returning the default
state on empty input, `json.JSONDecodeError`, or `TypeError` — the latter
raised by `**` when the parsed value is not an object or has a key that is
not a field name.  JSON values are modelled by `JVal`; numeric tokens are
kept as their lexemes (the state serializer never emits numbers, and the
deserializer never interprets them).  Lone-surrogate `\u` escapes, which
Lean's `Char` cannot carry, are approximated by `Char.ofNat`'s fallback. -/

/-- A parsed JSON value. -/
inductive JVal where
  | jnull
  | jbool (b : Bool)
  | jnum (lexeme : Str)
  | jstr (s : Str)
  | jarr (elems : List JVal)
  | jobj (fields : List (Str × JVal))

def hexDigit (n : Nat) : Char :=
  if n < 10 then Char.ofNat (48 + n) else Char.ofNat (87 + n)

/-- One character as Python's JSON encoder writes it (`ensure_ascii=False`):
quote, backslash and the named control characters get two-character escapes,
the remaining control characters a `\u00XX` escape, everything else is
written verbatim. -/
def escapeChar (c : Char) : Str :=
  if c = '"' then ['\\', '"']
  else if c = '\\' then ['\\', '\\']
  else if c = '\n' then ['\\', 'n']
  else if c = '\t' then ['\\', 't']
  else if c = '\r' then ['\\', 'r']
  else if c = '\x08' then ['\\', 'b']
  else if c = '\x0c' then ['\\', 'f']
  else if c.toNat < 32 then
    ['\\', 'u', '0', '0', hexDigit (c.toNat / 16), hexDigit (c.toNat % 16)]
  else [c]

def escapeStr : Str → Str
  | [] => []
  | c :: cs => escapeChar c ++ escapeStr cs

/-- A JSON string literal, quotes included. -/
def quoteStr (s : Str) : Str := '"' :: escapeStr s ++ ['"']

/-- `None` prints as `null`, a string as its quoted literal. -/
def dumpOptStr : Option Str → Str
  | none => "null".toList
  | some s => quoteStr s

/-- `", ".join(parts)` — `json.dumps`'s default item separator. -/
def joinCommaSp : List Str → Str
  | [] => []
  | [p] => p
  | p :: q :: rest => p ++ (", ".toList) ++ joinCommaSp (q :: rest)

/-- A `list[str]` field printed as a JSON array. -/
def dumpStrList (l : List Str) : Str := '[' :: joinCommaSp (l.map quoteStr) ++ [']']

/-- One `"key": value` pair — `": "` is `json.dumps`'s default key separator. -/
def kvDump (k : Str) (v : Str) : Str := quoteStr k ++ ':' :: ' ' :: v

def keyDeviceIp : Str := "device_ip".toList
def keyDeviceName : Str := "device_name".toList
def keyLastLogFile : Str := "last_log_file".toList
def keyDownloadedLogs : Str := "downloaded_logs".toList
def keyFindings : Str := "findings".toList
def keyHypotheses : Str := "hypotheses".toList
def keyRootCauses : Str := "root_causes".toList
def keyStatus : Str := "status".toList

/-- The dataclass's field names, in declaration order. -/
def field_names : List Str :=
  [keyDeviceIp, keyDeviceName, keyLastLogFile, keyDownloadedLogs,
   keyFindings, keyHypotheses, keyRootCauses, keyStatus]

/-- `DiagnosticState.serialize` (`memory.py` lines 104–105):
`json.dumps(asdict(self), ensure_ascii=False)`. -/
def serialize (s : DiagnosticState) : Str :=
  '\x7b' :: joinCommaSp
    [kvDump keyDeviceIp (dumpOptStr s.device_ip),
     kvDump keyDeviceName (dumpOptStr s.device_name),
     kvDump keyLastLogFile (dumpOptStr s.last_log_file),
     kvDump keyDownloadedLogs (dumpStrList s.downloaded_logs),
     kvDump keyFindings (dumpStrList s.findings),
     kvDump keyHypotheses (dumpStrList s.hypotheses),
     kvDump keyRootCauses (dumpStrList s.root_causes),
     kvDump keyStatus (quoteStr s.status)] ++ ['\x7d']

/-- JSON whitespace. -/
def jsonWs (c : Char) : Bool := c = ' ' || c = '\t' || c = '\n' || c = '\r'

def skipWs (s : Str) : Str := s.dropWhile jsonWs

def hexVal (c : Char) : Option Nat :=
  if '0' ≤ c ∧ c ≤ '9' then some (c.toNat - 48)
  else if 'a' ≤ c ∧ c ≤ 'f' then some (c.toNat - 87)
  else if 'A' ≤ c ∧ c ≤ 'F' then some (c.toNat - 55)
  else none

/-- The two-character escapes JSON strings admit. -/
def unescapeChar (e : Char) : Option Char :=
  if e = '"' then some '"'
  else if e = '\\' then some '\\'
  else if e = '/' then some '/'
  else if e = 'b' then some '\x08'
  else if e = 'f' then some '\x0c'
  else if e = 'n' then some '\n'
  else if e = 'r' then some '\r'
  else if e = 't' then some '\t'
  else none

/-- Parse a JSON string body after the opening quote, strict mode (raw
control characters are rejected, as `json.loads` does by default). -/
def parseStringBody : Str → Option (Str × Str)
  | [] => none
  | c :: rest =>
    if c = '"' then some ([], rest)
    else if c = '\\' then
      match rest with
      | [] => none
      | e :: r2 =>
        if e = 'u' then
          match r2 with
          | h1 :: h2 :: h3 :: h4 :: r3 =>
            match hexVal h1, hexVal h2, hexVal h3, hexVal h4 with
            | some d1, some d2, some d3, some d4 =>
              (parseStringBody r3).map
                (fun p => (Char.ofNat (((d1 * 16 + d2) * 16 + d3) * 16 + d4) :: p.1, p.2))
            | _, _, _, _ => none
          | _ => none
        else
          match unescapeChar e with
          | some uc => (parseStringBody r2).map (fun p => (uc :: p.1, p.2))
          | none => none
    else if c.toNat < 32 then none
    else (parseStringBody rest).map (fun p => (c :: p.1, p.2))

def isDigitC (c : Char) : Bool := '0' ≤ c && c ≤ '9'

/-- The integer part of a JSON number: `0`, or a nonzero digit followed by
digits (leading zeros rejected). -/
def parseIntPart : Str → Option (Str × Str)
  | [] => none
  | c :: rest =>
    if c = '0' then some (['0'], rest)
    else if isDigitC c then
      some (c :: rest.takeWhile isDigitC, rest.dropWhile isDigitC)
    else none

/-- Optional fraction part: `.` followed by at least one digit. -/
def parseFracPart (s : Str) : Option (Str × Str) :=
  match s with
  | '.' :: rest =>
    match rest.takeWhile isDigitC with
    | [] => none
    | ds => some ('.' :: ds, rest.dropWhile isDigitC)
  | _ => some ([], s)

/-- Optional exponent part: `e`/`E`, optional sign, at least one digit. -/
def parseExpPart (s : Str) : Option (Str × Str) :=
  match s with
  | c :: rest =>
    if c = 'e' ∨ c = 'E' then
      match rest with
      | sgn :: r2 =>
        if sgn = '+' ∨ sgn = '-' then
          match r2.takeWhile isDigitC with
          | [] => none
          | ds => some (c :: sgn :: ds, r2.dropWhile isDigitC)
        else
          match rest.takeWhile isDigitC with
          | [] => none
          | ds => some (c :: ds, rest.dropWhile isDigitC)
      | [] => none
    else some ([], s)
  | [] => some ([], s)

/-- A JSON number token, kept as its lexeme. -/
def parseNumber (s : Str) : Option (Str × Str) :=
  match s with
  | '-' :: rest =>
    match parseIntPart rest with
    | none => none
    | some (ip, r1) =>
      match parseFracPart r1 with
      | none => none
      | some (fp, r2) =>
        match parseExpPart r2 with
        | none => none
        | some (ep, r3) => some ('-' :: ip ++ fp ++ ep, r3)
  | _ =>
    match parseIntPart s with
    | none => none
    | some (ip, r1) =>
      match parseFracPart r1 with
      | none => none
      | some (fp, r2) =>
        match parseExpPart r2 with
        | none => none
        | some (ep, r3) => some (ip ++ fp ++ ep, r3)

/-- The element loop of a JSON array, after the opening bracket: parse a
value with `pv`, then a comma and further elements or the closing bracket.
The inner bound only limits the number of elements; each element consumes at
least one character, so `input length + 1` always suffices. -/
def parseListElems (pv : Str → Option (JVal × Str)) : Nat → Str → Option (List JVal × Str)
  | 0, _ => none
  | n + 1, s =>
    match pv s with
    | none => none
    | some (v, r) =>
      match skipWs r with
      | c :: r2 =>
        if c = ',' then
          match parseListElems pv n r2 with
          | none => none
          | some (vs, r3) => some (v :: vs, r3)
        else if c = ']' then some ([v], r2)
        else none
      | [] => none

/-- The member loop of a JSON object, after the opening brace: a quoted key,
a colon, a value, then a comma and further members or the closing brace. -/
def parseObjFields (pv : Str → Option (JVal × Str)) : Nat → Str → Option (List (Str × JVal) × Str)
  | 0, _ => none
  | n + 1, s =>
    match skipWs s with
    | c :: rest =>
      if c = '"' then
        match parseStringBody rest with
        | none => none
        | some (k, r) =>
          match skipWs r with
          | c2 :: r2 =>
            if c2 = ':' then
              match pv r2 with
              | none => none
              | some (v, r3) =>
                match skipWs r3 with
                | c3 :: r4 =>
                  if c3 = ',' then
                    match parseObjFields pv n r4 with
                    | none => none
                    | some (fs, r5) => some ((k, v) :: fs, r5)
                  else if c3 = '\x7d' then some ([(k, v)], r4)
                  else none
                | [] => none
            else none
          | [] => none
      else none
    | [] => none

/-- Recursive-descent JSON value parser; the fuel bounds the nesting depth
(one unit per bracket level), so `input length + 1` always suffices. -/
def parseJVal : Nat → Str → Option (JVal × Str)
  | 0, _ => none
  | fuel + 1, s =>
    match skipWs s with
    | [] => none
    | c :: rest =>
      if c = '"' then
        (parseStringBody rest).map (fun p => (JVal.jstr p.1, p.2))
      else if c = '[' then
        match skipWs rest with
        | c2 :: r2 =>
          if c2 = ']' then some (JVal.jarr [], r2)
          else
            (parseListElems (parseJVal fuel) (rest.length + 1) rest).map
              (fun p => (JVal.jarr p.1, p.2))
        | [] => none
      else if c = '\x7b' then
        match skipWs rest with
        | c2 :: r2 =>
          if c2 = '\x7d' then some (JVal.jobj [], r2)
          else
            (parseObjFields (parseJVal fuel) (rest.length + 1) rest).map
              (fun p => (JVal.jobj p.1, p.2))
        | [] => none
      else if c = 't' then
        match rest with
        | 'r' :: 'u' :: 'e' :: r2 => some (JVal.jbool true, r2)
        | _ => none
      else if c = 'f' then
        match rest with
        | 'a' :: 'l' :: 's' :: 'e' :: r2 => some (JVal.jbool false, r2)
        | _ => none
      else if c = 'n' then
        match rest with
        | 'u' :: 'l' :: 'l' :: r2 => some (JVal.jnull, r2)
        | _ => none
      else
        (parseNumber (c :: rest)).map (fun p => (JVal.jnum p.1, p.2))

/-- `json.loads`: one complete value, with only whitespace around it. -/
def json_loads (raw : Str) : Option JVal :=
  match parseJVal (raw.length + 1) raw with
  | none => none
  | some (v, rest) => if skipWs rest = [] then some v else none

example : json_loads ("null".toList) = some JVal.jnull := rfl
example : json_loads (" [\"a\", \"b\"] ".toList) =
    some (JVal.jarr [JVal.jstr ['a'], JVal.jstr ['b']]) := rfl
example : json_loads ("\x7b\"a\": -1.5e3, \"b\": true\x7d".toList) =
    some (JVal.jobj [(['a'], JVal.jnum ("-1.5e3".toList)), (['b'], JVal.jbool true)]) := rfl
example : json_loads ("\"x\\n\\u0007\"".toList) =
    some (JVal.jstr ['x', '\n', '\x07']) := rfl
example : json_loads ("01".toList) = none := rfl

/-- The dataclass with Python's dynamic field values: `cls(**d)` performs no
type checking, so `deserialize` can populate any field with any JSON value. -/
structure PyDiagnosticState where
  device_ip : JVal
  device_name : JVal
  last_log_file : JVal
  downloaded_logs : JVal
  findings : JVal
  hypotheses : JVal
  root_causes : JVal
  status : JVal

def optJ : Option Str → JVal
  | none => JVal.jnull
  | some s => JVal.jstr s

def listJ (l : List Str) : JVal := JVal.jarr (l.map JVal.jstr)

/-- A well-typed state viewed as a dynamic one (the identity embedding of
field values into Python's dynamic world). -/
def toDyn (s : DiagnosticState) : PyDiagnosticState :=
  ⟨optJ s.device_ip, optJ s.device_name, optJ s.last_log_file,
   listJ s.downloaded_logs, listJ s.findings, listJ s.hypotheses,
   listJ s.root_causes, JVal.jstr s.status⟩

/-- The dataclass defaults, dynamically. -/
def defaultPyDiagnosticState : PyDiagnosticState := toDyn defaultDiagnosticState

/-- Dictionary lookup as `json.loads` builds it: later duplicate keys win. -/
def objLookup (fs : List (Str × JVal)) (k : Str) : Option JVal :=
  fs.foldl (fun acc kv => if kv.1 = k then some kv.2 else acc) none

def getOr (fs : List (Str × JVal)) (k : Str) (d : JVal) : JVal :=
  (objLookup fs k).getD d

/-- `cls(**d)`: `d` must be an object all of whose keys are field names
(otherwise `TypeError`, modelled as `none`); present fields take their parsed
value, absent ones their dataclass default. -/
def applyKwargs : JVal → Option PyDiagnosticState
  | JVal.jobj fs =>
    if fs.all (fun kv => field_names.contains kv.1) then
      some ⟨getOr fs keyDeviceIp JVal.jnull, getOr fs keyDeviceName JVal.jnull,
            getOr fs keyLastLogFile JVal.jnull, getOr fs keyDownloadedLogs (JVal.jarr []),
            getOr fs keyFindings (JVal.jarr []), getOr fs keyHypotheses (JVal.jarr []),
            getOr fs keyRootCauses (JVal.jarr []), getOr fs keyStatus (JVal.jstr strIdle)⟩
    else none
  | _ => none

/-- `DiagnosticState.deserialize` (`memory.py` lines 107–114): empty input,
a JSON parse failure, or a `TypeError` from `cls(**...)` give the default
state; otherwise the keyword application's result is returned. -/
def deserialize (raw : Str) : PyDiagnosticState :=
  if raw = [] then defaultPyDiagnosticState
  else
    match json_loads raw with
    | none => defaultPyDiagnosticState
    | some v =>
      match applyKwargs v with
      | some st => st
      | none => defaultPyDiagnosticState

/-- The JSON value `json.loads` recovers from a serialized state. -/
def stateToJVal (s : DiagnosticState) : JVal :=
  JVal.jobj
    [(keyDeviceIp, optJ s.device_ip), (keyDeviceName, optJ s.device_name),
     (keyLastLogFile, optJ s.last_log_file), (keyDownloadedLogs, listJ s.downloaded_logs),
     (keyFindings, listJ s.findings), (keyHypotheses, listJ s.hypotheses),
     (keyRootCauses, listJ s.root_causes), (keyStatus, JVal.jstr s.status)]

set_option maxRecDepth 8192

example : deserialize (serialize defaultDiagnosticState) = defaultPyDiagnosticState := rfl
example : deserialize (serialize ⟨some ("10.1.1.45".toList), none, none,
    [("a\"b\\c\n".toList)], [], [], [], strResolved⟩) =
  toDyn ⟨some ("10.1.1.45".toList), none, none, [("a\"b\\c\n".toList)], [], [], [],
    strResolved⟩ := rfl
example : deserialize ("\x7b\"status\": \"resolved\"\x7d".toList) =
    ⟨JVal.jnull, JVal.jnull, JVal.jnull, JVal.jarr [], JVal.jarr [], JVal.jarr [],
     JVal.jarr [], JVal.jstr ("resolved".toList)⟩ := rfl
example : deserialize ("not json".toList) = defaultPyDiagnosticState := rfl
example : deserialize [] = defaultPyDiagnosticState := rfl
example : deserialize ("\x7b\"bogus\": 1\x7d".toList) = defaultPyDiagnosticState := rfl

theorem skipWs_cons (c : Char) (t : Str) (h : jsonWs c = false) : skipWs (c :: t) = c :: t := by
  simp [skipWs, List.dropWhile_cons, h]

theorem skipWs_space (t : Str) : skipWs (' ' :: t) = skipWs t := by
  simp [skipWs, List.dropWhile_cons, jsonWs]

theorem hexVal_hexDigit : ∀ n < 16, hexVal (hexDigit n) = some n := by decide

theorem parseStringBody_closing (rest : Str) :
    parseStringBody ('"' :: rest) = some ([], rest) := by
  rw [parseStringBody.eq_def]
  simp

theorem parseStringBody_escape2 (e uc : Char) (t : Str) (he : ¬e = 'u')
    (hu : unescapeChar e = some uc) :
    parseStringBody ('\\' :: e :: t) = (parseStringBody t).map (fun p => (uc :: p.1, p.2)) := by
  rw [parseStringBody.eq_def]
  simp [he, hu]

theorem parseStringBody_unicode (d1 d2 : Char) (t : Str) (a b : Nat)
    (h1 : hexVal d1 = some a) (h2 : hexVal d2 = some b) :
    parseStringBody ('\\' :: 'u' :: '0' :: '0' :: d1 :: d2 :: t) =
      (parseStringBody t).map (fun p => (Char.ofNat (a * 16 + b) :: p.1, p.2)) := by
  have hz : hexVal '0' = some 0 := rfl
  rw [parseStringBody.eq_def]
  simp [hz, h1, h2]

theorem parseStringBody_plain (c : Char) (t : Str) (h1 : ¬c = '"') (h2 : ¬c = '\\')
    (h8 : ¬c.toNat < 32) :
    parseStringBody (c :: t) = (parseStringBody t).map (fun p => (c :: p.1, p.2)) := by
  rw [parseStringBody.eq_def]
  simp [h1, h2, h8]

theorem parseStringBody_escapeStr : ∀ (s : Str) (rest : Str),
    parseStringBody (escapeStr s ++ '"' :: rest) = some (s, rest) := by
  intro s
  induction s with
  | nil =>
    intro rest
    exact parseStringBody_closing rest
  | cons c cs ih =>
    intro rest
    show parseStringBody ((escapeChar c ++ escapeStr cs) ++ '"' :: rest) = _
    rw [List.append_assoc]
    unfold escapeChar
    split_ifs with h1 h2 h3 h4 h5 h6 h7 h8
    · subst h1
      rw [show ((['\\', '"'] : Str) ++ (escapeStr cs ++ '"' :: rest)) =
            '\\' :: '"' :: (escapeStr cs ++ '"' :: rest) from rfl]
      rw [parseStringBody_escape2 '"' '"' _ (by decide) rfl, ih]
      rfl
    · subst h2
      rw [show ((['\\', '\\'] : Str) ++ (escapeStr cs ++ '"' :: rest)) =
            '\\' :: '\\' :: (escapeStr cs ++ '"' :: rest) from rfl]
      rw [parseStringBody_escape2 '\\' '\\' _ (by decide) rfl, ih]
      rfl
    · subst h3
      rw [show ((['\\', 'n'] : Str) ++ (escapeStr cs ++ '"' :: rest)) =
            '\\' :: 'n' :: (escapeStr cs ++ '"' :: rest) from rfl]
      rw [parseStringBody_escape2 'n' '\n' _ (by decide) rfl, ih]
      rfl
    · subst h4
      rw [show ((['\\', 't'] : Str) ++ (escapeStr cs ++ '"' :: rest)) =
            '\\' :: 't' :: (escapeStr cs ++ '"' :: rest) from rfl]
      rw [parseStringBody_escape2 't' '\t' _ (by decide) rfl, ih]
      rfl
    · subst h5
      rw [show ((['\\', 'r'] : Str) ++ (escapeStr cs ++ '"' :: rest)) =
            '\\' :: 'r' :: (escapeStr cs ++ '"' :: rest) from rfl]
      rw [parseStringBody_escape2 'r' '\r' _ (by decide) rfl, ih]
      rfl
    · subst h6
      rw [show ((['\\', 'b'] : Str) ++ (escapeStr cs ++ '"' :: rest)) =
            '\\' :: 'b' :: (escapeStr cs ++ '"' :: rest) from rfl]
      rw [parseStringBody_escape2 'b' '\x08' _ (by decide) rfl, ih]
      rfl
    · subst h7
      rw [show ((['\\', 'f'] : Str) ++ (escapeStr cs ++ '"' :: rest)) =
            '\\' :: 'f' :: (escapeStr cs ++ '"' :: rest) from rfl]
      rw [parseStringBody_escape2 'f' '\x0c' _ (by decide) rfl, ih]
      rfl
    · rw [show ((['\\', 'u', '0', '0', hexDigit (c.toNat / 16), hexDigit (c.toNat % 16)] : Str)
              ++ (escapeStr cs ++ '"' :: rest)) =
            '\\' :: 'u' :: '0' :: '0' :: hexDigit (c.toNat / 16) :: hexDigit (c.toNat % 16) ::
              (escapeStr cs ++ '"' :: rest) from rfl]
      rw [parseStringBody_unicode _ _ _ _ _
            (hexVal_hexDigit _ (by omega)) (hexVal_hexDigit _ (by omega)), ih]
      rw [show c.toNat / 16 * 16 + c.toNat % 16 = c.toNat from by omega, Char.ofNat_toNat]
      rfl
    · rw [show (([c] : Str) ++ (escapeStr cs ++ '"' :: rest)) =
            c :: (escapeStr cs ++ '"' :: rest) from rfl]
      rw [parseStringBody_plain c _ h1 h2 h8, ih]
      rfl

theorem parseJVal_ws_space (fuel : Nat) (t : Str) :
    parseJVal fuel (' ' :: t) = parseJVal fuel t := by
  cases fuel with
  | zero => rfl
  | succ f =>
    simp only [parseJVal.eq_def, skipWs_space]

theorem parseJVal_quote (fuel : Nat) (h : 1 ≤ fuel) (s rest : Str) :
    parseJVal fuel (quoteStr s ++ rest) = some (JVal.jstr s, rest) := by
  cases fuel with
  | zero => omega
  | succ f =>
    rw [show quoteStr s ++ rest = '"' :: (escapeStr s ++ '"' :: rest) from by simp [quoteStr]]
    rw [parseJVal.eq_def]
    have hs : skipWs ('"' :: (escapeStr s ++ '"' :: rest)) = '"' :: (escapeStr s ++ '"' :: rest) :=
      skipWs_cons _ _ (by decide)
    simp [hs, parseStringBody_escapeStr]

theorem parseJVal_null (fuel : Nat) (h : 1 ≤ fuel) (rest : Str) :
    parseJVal fuel (("null".toList) ++ rest) = some (JVal.jnull, rest) := by
  cases fuel with
  | zero => omega
  | succ f =>
    rw [show ("null".toList) ++ rest = 'n' :: 'u' :: 'l' :: 'l' :: rest from rfl]
    rw [parseJVal.eq_def]
    have hs : skipWs ('n' :: 'u' :: 'l' :: 'l' :: rest) = 'n' :: 'u' :: 'l' :: 'l' :: rest :=
      skipWs_cons _ _ (by decide)
    simp [hs]

theorem parseJVal_optstr (fuel : Nat) (h : 1 ≤ fuel) (o : Option Str) (rest : Str) :
    parseJVal fuel (dumpOptStr o ++ rest) = some (optJ o, rest) := by
  cases o with
  | none => exact parseJVal_null fuel h rest
  | some s => exact parseJVal_quote fuel h s rest

theorem parseListElems_succ (pv : Str → Option (JVal × Str)) (n : Nat) (s : Str) :
    parseListElems pv (n + 1) s =
      match pv s with
      | none => none
      | some (v, r) =>
        match skipWs r with
        | c :: r2 =>
          if c = ',' then
            match parseListElems pv n r2 with
            | none => none
            | some (vs, r3) => some (v :: vs, r3)
          else if c = ']' then some ([v], r2)
          else none
        | [] => none := rfl

theorem parseListElems_space (pv : Str → Option (JVal × Str))
    (hws : ∀ t, pv (' ' :: t) = pv t) (n : Nat) (t : Str) :
    parseListElems pv n (' ' :: t) = parseListElems pv n t := by
  cases n with
  | zero => rfl
  | succ n => rw [parseListElems_succ, parseListElems_succ, hws]

theorem parseListElems_quoted (pv : Str → Option (JVal × Str))
    (hws : ∀ t, pv (' ' :: t) = pv t)
    (hq : ∀ (e : Str) (r : Str), pv (quoteStr e ++ r) = some (JVal.jstr e, r)) :
    ∀ (l : List Str) (n : Nat) (rest : Str),
      l.length ≤ n → l ≠ [] →
      parseListElems pv n (joinCommaSp (l.map quoteStr) ++ ']' :: rest) =
        some (l.map JVal.jstr, rest) := by
  intro l
  induction l with
  | nil => intro n rest _ hne; exact absurd rfl hne
  | cons e es ih =>
    intro n rest hn _
    cases n with
    | zero => simp at hn
    | succ n =>
      cases es with
      | nil =>
        rw [show joinCommaSp ([e].map quoteStr) = quoteStr e from rfl]
        have h1 := hq e (']' :: rest)
        have hs : skipWs (']' :: rest) = ']' :: rest := skipWs_cons _ _ (by decide)
        rw [parseListElems_succ]
        simp [h1, hs]
      | cons e2 es2 =>
        have hjoin : joinCommaSp ((e :: e2 :: es2).map quoteStr) ++ ']' :: rest =
            quoteStr e ++ ',' :: ' ' ::
              (joinCommaSp ((e2 :: es2).map quoteStr) ++ ']' :: rest) := by
          simp [joinCommaSp]
        rw [hjoin]
        have h1 := hq e (',' :: ' ' :: (joinCommaSp ((e2 :: es2).map quoteStr) ++ ']' :: rest))
        have hs : skipWs (',' :: ' ' :: (joinCommaSp ((e2 :: es2).map quoteStr) ++ ']' :: rest)) =
            ',' :: ' ' :: (joinCommaSp ((e2 :: es2).map quoteStr) ++ ']' :: rest) :=
          skipWs_cons _ _ (by decide)
        rw [parseListElems_succ]
        simp only [h1, hs]
        rw [parseListElems_space pv hws]
        rw [ih n rest (by simp at hn ⊢; omega) (by simp)]
        simp

theorem parseJVal_succ (fuel : Nat) (s : Str) :
    parseJVal (fuel + 1) s =
      match skipWs s with
      | [] => none
      | c :: rest =>
        if c = '"' then
          (parseStringBody rest).map (fun p => (JVal.jstr p.1, p.2))
        else if c = '[' then
          match skipWs rest with
          | c2 :: r2 =>
            if c2 = ']' then some (JVal.jarr [], r2)
            else
              (parseListElems (parseJVal fuel) (rest.length + 1) rest).map
                (fun p => (JVal.jarr p.1, p.2))
          | [] => none
        else if c = '\x7b' then
          match skipWs rest with
          | c2 :: r2 =>
            if c2 = '\x7d' then some (JVal.jobj [], r2)
            else
              (parseObjFields (parseJVal fuel) (rest.length + 1) rest).map
                (fun p => (JVal.jobj p.1, p.2))
          | [] => none
        else if c = 't' then
          match rest with
          | 'r' :: 'u' :: 'e' :: r2 => some (JVal.jbool true, r2)
          | _ => none
        else if c = 'f' then
          match rest with
          | 'a' :: 'l' :: 's' :: 'e' :: r2 => some (JVal.jbool false, r2)
          | _ => none
        else if c = 'n' then
          match rest with
          | 'u' :: 'l' :: 'l' :: r2 => some (JVal.jnull, r2)
          | _ => none
        else
          (parseNumber (c :: rest)).map (fun p => (JVal.jnum p.1, p.2)) := rfl

theorem quoteStr_length_ge (s : Str) : 2 ≤ (quoteStr s).length := by
  simp [quoteStr]

theorem joinCommaSp_quote_length : ∀ (l : List Str),
    l.length ≤ (joinCommaSp (l.map quoteStr)).length := by
  intro l
  induction l with
  | nil => simp [joinCommaSp]
  | cons e es ih =>
    cases es with
    | nil =>
      have := quoteStr_length_ge e
      simp [joinCommaSp]
      omega
    | cons e2 es2 =>
      have h1 := quoteStr_length_ge e
      simp only [List.map_cons, joinCommaSp, List.length_append, List.length_cons] at ih ⊢
      simp at ih ⊢
      omega

theorem joinCommaSp_quote_head (e : Str) (es : List Str) :
    ∃ t, joinCommaSp ((e :: es).map quoteStr) = '"' :: t := by
  cases es with
  | nil => exact ⟨escapeStr e ++ ['"'], rfl⟩
  | cons e2 es2 =>
    exact ⟨(escapeStr e ++ ['"']) ++ ',' :: ' ' :: joinCommaSp ((e2 :: es2).map quoteStr),
      by simp [joinCommaSp, quoteStr]⟩

theorem parseJVal_strlist (fuel : Nat) (h : 2 ≤ fuel) (l : List Str) (rest : Str) :
    parseJVal fuel (dumpStrList l ++ rest) = some (listJ l, rest) := by
  cases fuel with
  | zero => omega
  | succ f =>
    have hf : 1 ≤ f := by omega
    cases l with
    | nil =>
      rw [show dumpStrList [] ++ rest = '[' :: ']' :: rest from rfl]
      rw [parseJVal_succ]
      have hs1 : skipWs ('[' :: ']' :: rest) = '[' :: ']' :: rest := skipWs_cons _ _ (by decide)
      have hs2 : skipWs (']' :: rest) = ']' :: rest := skipWs_cons _ _ (by decide)
      simp [hs1, hs2, listJ]
    | cons e es =>
      obtain ⟨t, ht⟩ := joinCommaSp_quote_head e es
      have hshape : dumpStrList (e :: es) ++ rest =
          '[' :: (joinCommaSp ((e :: es).map quoteStr) ++ ']' :: rest) := by
        simp only [dumpStrList, List.cons_append, List.append_assoc, List.singleton_append,
          List.nil_append]
      have hlen : (e :: es).length ≤
          (joinCommaSp ((e :: es).map quoteStr) ++ ']' :: rest).length + 1 := by
        have hj := joinCommaSp_quote_length (e :: es)
        simp only [List.length_cons] at hj
        simp only [List.length_append, List.length_cons]
        omega
      have helems := parseListElems_quoted (parseJVal f)
        (fun t => parseJVal_ws_space f t) (fun e r => parseJVal_quote f hf e r)
        (e :: es) ((joinCommaSp ((e :: es).map quoteStr) ++ ']' :: rest).length + 1) rest
        hlen (by simp)
      rw [hshape, parseJVal_succ, skipWs_cons '[' _ (by decide)]
      rw [ht] at helems ⊢
      have hs2 : skipWs ('"' :: (t ++ ']' :: rest)) = '"' :: (t ++ ']' :: rest) :=
        skipWs_cons _ _ (by decide)
      simp only [List.cons_append] at helems ⊢
      simp only [List.length_cons, List.length_append] at helems
      simp [hs2, helems, listJ]

theorem parseObjFields_succ (pv : Str → Option (JVal × Str)) (n : Nat) (s : Str) :
    parseObjFields pv (n + 1) s =
      match skipWs s with
      | c :: rest =>
        if c = '"' then
          match parseStringBody rest with
          | none => none
          | some (k, r) =>
            match skipWs r with
            | c2 :: r2 =>
              if c2 = ':' then
                match pv r2 with
                | none => none
                | some (v, r3) =>
                  match skipWs r3 with
                  | c3 :: r4 =>
                    if c3 = ',' then
                      match parseObjFields pv n r4 with
                      | none => none
                      | some (fs, r5) => some ((k, v) :: fs, r5)
                    else if c3 = '\x7d' then some ([(k, v)], r4)
                    else none
                  | [] => none
              else none
            | [] => none
        else none
      | [] => none := rfl

theorem parseObjFields_space (pv : Str → Option (JVal × Str)) (n : Nat) (t : Str) :
    parseObjFields pv n (' ' :: t) = parseObjFields pv n t := by
  cases n with
  | zero => rfl
  | succ n => rw [parseObjFields_succ, parseObjFields_succ, skipWs_space]

theorem parseObjFields_kvs (pv : Str → Option (JVal × Str))
    (hws : ∀ t, pv (' ' :: t) = pv t) :
    ∀ (ts : List (Str × JVal × Str)) (n : Nat) (rest : Str),
      ts.length ≤ n → ts ≠ [] →
      (∀ x ∈ ts, ∀ r, pv (x.2.2 ++ r) = some (x.2.1, r)) →
      parseObjFields pv n
          (joinCommaSp (ts.map (fun x => kvDump x.1 x.2.2)) ++ '\x7d' :: rest) =
        some (ts.map (fun x => (x.1, x.2.1)), rest) := by
  intro ts
  induction ts with
  | nil => intro n rest _ hne _; exact absurd rfl hne
  | cons x xs ih =>
    obtain ⟨k, v, dv⟩ := x
    intro n rest hn _ hpv
    cases n with
    | zero => simp at hn
    | succ n =>
      have hpv1 : ∀ r, pv (dv ++ r) = some (v, r) := fun r => hpv (k, v, dv) (by simp) r
      cases xs with
      | nil =>
        have hshape :
            joinCommaSp ([((k, v, dv) : Str × JVal × Str)].map (fun x => kvDump x.1 x.2.2))
                ++ '\x7d' :: rest
              = '"' :: (escapeStr k ++ '"' :: ':' :: ' ' :: (dv ++ '\x7d' :: rest)) := by
          simp [joinCommaSp, kvDump, quoteStr]
        rw [hshape, parseObjFields_succ, skipWs_cons '"' _ (by decide)]
        have hk := parseStringBody_escapeStr k (':' :: ' ' :: (dv ++ '\x7d' :: rest))
        have hs1 : skipWs (':' :: ' ' :: (dv ++ '\x7d' :: rest)) =
            ':' :: ' ' :: (dv ++ '\x7d' :: rest) := skipWs_cons _ _ (by decide)
        have hv : pv (' ' :: (dv ++ '\x7d' :: rest)) = some (v, '\x7d' :: rest) := by
          rw [hws]; exact hpv1 _
        have hs2 : skipWs ('\x7d' :: rest) = '\x7d' :: rest := skipWs_cons _ _ (by decide)
        simp [hk, hs1, hv, hs2]
      | cons y ys =>
        have hshape :
            joinCommaSp (((k, v, dv) :: y :: ys).map (fun x => kvDump x.1 x.2.2))
                ++ '\x7d' :: rest
              = '"' :: (escapeStr k ++ '"' :: ':' :: ' ' ::
                  (dv ++ ',' :: ' ' ::
                    (joinCommaSp ((y :: ys).map (fun x => kvDump x.1 x.2.2))
                      ++ '\x7d' :: rest))) := by
          simp [joinCommaSp, kvDump, quoteStr]
        rw [hshape, parseObjFields_succ, skipWs_cons '"' _ (by decide)]
        have hk := parseStringBody_escapeStr k (':' :: ' ' ::
          (dv ++ ',' :: ' ' ::
            (joinCommaSp ((y :: ys).map (fun x => kvDump x.1 x.2.2)) ++ '\x7d' :: rest)))
        have hs1 : skipWs (':' :: ' ' ::
            (dv ++ ',' :: ' ' ::
              (joinCommaSp ((y :: ys).map (fun x => kvDump x.1 x.2.2)) ++ '\x7d' :: rest))) =
            ':' :: ' ' ::
              (dv ++ ',' :: ' ' ::
                (joinCommaSp ((y :: ys).map (fun x => kvDump x.1 x.2.2)) ++ '\x7d' :: rest)) :=
          skipWs_cons _ _ (by decide)
        have hv : pv (' ' ::
            (dv ++ ',' :: ' ' ::
              (joinCommaSp ((y :: ys).map (fun x => kvDump x.1 x.2.2)) ++ '\x7d' :: rest))) =
            some (v, ',' :: ' ' ::
              (joinCommaSp ((y :: ys).map (fun x => kvDump x.1 x.2.2)) ++ '\x7d' :: rest)) := by
          rw [hws]; exact hpv1 _
        have hs2 : skipWs (',' :: ' ' ::
            (joinCommaSp ((y :: ys).map (fun x => kvDump x.1 x.2.2)) ++ '\x7d' :: rest)) =
            ',' :: ' ' ::
              (joinCommaSp ((y :: ys).map (fun x => kvDump x.1 x.2.2)) ++ '\x7d' :: rest) :=
          skipWs_cons _ _ (by decide)
        have hrec : parseObjFields pv n (' ' ::
            (joinCommaSp ((y :: ys).map (fun x => kvDump x.1 x.2.2)) ++ '\x7d' :: rest)) =
            some ((y :: ys).map (fun x => (x.1, x.2.1)), rest) := by
          rw [parseObjFields_space]
          exact ih n rest (by simp at hn ⊢; omega) (by simp)
            (fun x hx r => hpv x (by simp [hx]) r)
        simp only [List.map_cons] at hk hs1 hv hs2 hrec ⊢
        simp [hk, hs1, hv, hs2, hrec]

theorem joinCommaSp_kv_head (k dv : Str) (xs : List Str) :
    ∃ t, joinCommaSp (kvDump k dv :: xs) = '"' :: t := by
  cases xs with
  | nil => exact ⟨escapeStr k ++ '"' :: ':' :: ' ' :: dv, by simp [joinCommaSp, kvDump, quoteStr]⟩
  | cons a as =>
    exact ⟨escapeStr k ++ '"' :: ':' :: ' ' :: (dv ++ ',' :: ' ' :: joinCommaSp (a :: as)),
      by simp [joinCommaSp, kvDump, quoteStr]⟩

theorem joinCommaSp_length_ge_head (x : Str) (xs : List Str) :
    x.length ≤ (joinCommaSp (x :: xs)).length := by
  cases xs with
  | nil => simp [joinCommaSp]
  | cons a as => simp [joinCommaSp]

/-- The eight fields of a serialized state, as (key, parsed value, dumped
value) triples. -/
def stateTriples (s : DiagnosticState) : List (Str × JVal × Str) :=
  [(keyDeviceIp, optJ s.device_ip, dumpOptStr s.device_ip),
   (keyDeviceName, optJ s.device_name, dumpOptStr s.device_name),
   (keyLastLogFile, optJ s.last_log_file, dumpOptStr s.last_log_file),
   (keyDownloadedLogs, listJ s.downloaded_logs, dumpStrList s.downloaded_logs),
   (keyFindings, listJ s.findings, dumpStrList s.findings),
   (keyHypotheses, listJ s.hypotheses, dumpStrList s.hypotheses),
   (keyRootCauses, listJ s.root_causes, dumpStrList s.root_causes),
   (keyStatus, JVal.jstr s.status, quoteStr s.status)]

theorem parseJVal_serialize (fuel : Nat) (h : 3 ≤ fuel) (s : DiagnosticState) (rest : Str) :
    parseJVal fuel (serialize s ++ rest) = some (stateToJVal s, rest) := by
  cases fuel with
  | zero => omega
  | succ f =>
    have hf2 : 2 ≤ f := by omega
    have hf1 : 1 ≤ f := by omega
    have hJ : ((stateTriples s).map (fun x => kvDump x.1 x.2.2)) =
        [kvDump keyDeviceIp (dumpOptStr s.device_ip),
         kvDump keyDeviceName (dumpOptStr s.device_name),
         kvDump keyLastLogFile (dumpOptStr s.last_log_file),
         kvDump keyDownloadedLogs (dumpStrList s.downloaded_logs),
         kvDump keyFindings (dumpStrList s.findings),
         kvDump keyHypotheses (dumpStrList s.hypotheses),
         kvDump keyRootCauses (dumpStrList s.root_causes),
         kvDump keyStatus (quoteStr s.status)] := rfl
    have hshape : serialize s ++ rest =
        '\x7b' :: (joinCommaSp ((stateTriples s).map (fun x => kvDump x.1 x.2.2))
          ++ '\x7d' :: rest) := by
      rw [hJ]
      simp only [serialize, List.cons_append, List.append_assoc, List.singleton_append,
        List.nil_append]
    obtain ⟨t, ht⟩ : ∃ t,
        joinCommaSp ((stateTriples s).map (fun x => kvDump x.1 x.2.2)) = '"' :: t := by
      rw [hJ]
      exact joinCommaSp_kv_head _ _ _
    have hlen : (stateTriples s).length ≤
        (joinCommaSp ((stateTriples s).map (fun x => kvDump x.1 x.2.2))
          ++ '\x7d' :: rest).length + 1 := by
      have h1 : 13 ≤ (kvDump keyDeviceIp (dumpOptStr s.device_ip)).length := by
        have hesc : (escapeStr keyDeviceIp).length = 9 := rfl
        simp [kvDump, quoteStr, hesc]
        omega
      have h2 := joinCommaSp_length_ge_head (kvDump keyDeviceIp (dumpOptStr s.device_ip))
        [kvDump keyDeviceName (dumpOptStr s.device_name),
         kvDump keyLastLogFile (dumpOptStr s.last_log_file),
         kvDump keyDownloadedLogs (dumpStrList s.downloaded_logs),
         kvDump keyFindings (dumpStrList s.findings),
         kvDump keyHypotheses (dumpStrList s.hypotheses),
         kvDump keyRootCauses (dumpStrList s.root_causes),
         kvDump keyStatus (quoteStr s.status)]
      rw [hJ]
      simp only [List.length_append, List.length_cons, stateTriples]
      simp only [List.length_cons, List.length_nil]
      omega
    have hpv : ∀ x ∈ stateTriples s, ∀ r, parseJVal f (x.2.2 ++ r) = some (x.2.1, r) := by
      intro x hx r
      simp only [stateTriples, List.mem_cons, List.mem_singleton] at hx
      rcases hx with rfl | rfl | rfl | rfl | rfl | rfl | rfl | rfl | hfalse
      · exact parseJVal_optstr f hf1 _ r
      · exact parseJVal_optstr f hf1 _ r
      · exact parseJVal_optstr f hf1 _ r
      · exact parseJVal_strlist f hf2 _ r
      · exact parseJVal_strlist f hf2 _ r
      · exact parseJVal_strlist f hf2 _ r
      · exact parseJVal_strlist f hf2 _ r
      · exact parseJVal_quote f hf1 _ r
      · exact absurd hfalse (by simp)
    have hfields := parseObjFields_kvs (parseJVal f) (fun t => parseJVal_ws_space f t)
      (stateTriples s)
      ((joinCommaSp ((stateTriples s).map (fun x => kvDump x.1 x.2.2))
          ++ '\x7d' :: rest).length + 1)
      rest hlen (by simp [stateTriples]) hpv
    have hmapped : (stateTriples s).map (fun x => (x.1, x.2.1)) =
        [(keyDeviceIp, optJ s.device_ip), (keyDeviceName, optJ s.device_name),
         (keyLastLogFile, optJ s.last_log_file), (keyDownloadedLogs, listJ s.downloaded_logs),
         (keyFindings, listJ s.findings), (keyHypotheses, listJ s.hypotheses),
         (keyRootCauses, listJ s.root_causes), (keyStatus, JVal.jstr s.status)] := rfl
    rw [hshape, parseJVal_succ, skipWs_cons '\x7b' _ (by decide)]
    have hs2 : skipWs (joinCommaSp ((stateTriples s).map (fun x => kvDump x.1 x.2.2))
        ++ '\x7d' :: rest) =
        joinCommaSp ((stateTriples s).map (fun x => kvDump x.1 x.2.2)) ++ '\x7d' :: rest := by
      rw [ht]
      exact skipWs_cons _ _ (by decide)
    rw [hmapped] at hfields
    rw [ht] at hs2 hfields ⊢
    simp only [List.cons_append] at hfields hs2 ⊢
    simp only [List.length_cons, List.length_append] at hfields
    simp [hs2, hfields, stateToJVal]

theorem json_loads_serialize (s : DiagnosticState) :
    json_loads (serialize s) = some (stateToJVal s) := by
  have hlen : 2 ≤ (serialize s).length := by
    simp [serialize]
  have hp := parseJVal_serialize ((serialize s).length + 1) (by omega) s []
  rw [List.append_nil] at hp
  unfold json_loads
  rw [hp]
  simp [skipWs]

theorem applyKwargs_stateToJVal (s : DiagnosticState) :
    applyKwargs (stateToJVal s) = some (toDyn s) := rfl

theorem deserialize_serialize (s : DiagnosticState) :
    deserialize (serialize s) = toDyn s := by
  have hne : serialize s ≠ [] := by simp [serialize]
  unfold deserialize
  rw [if_neg hne, json_loads_serialize]
  simp [applyKwargs_stateToJVal]

theorem optJ_inj {a b : Option Str} (h : optJ a = optJ b) : a = b := by
  cases a <;> cases b <;> simp_all [optJ]

theorem listJ_inj {a b : List Str} (h : listJ a = listJ b) : a = b := by
  unfold listJ at h
  have h2 : a.map JVal.jstr = b.map JVal.jstr := by injection h
  exact List.map_injective_iff.mpr (fun x y hxy => by injection hxy) h2

theorem toDyn_inj (a b : DiagnosticState) (h : toDyn a = toDyn b) : a = b := by
  cases a
  cases b
  simp only [toDyn, PyDiagnosticState.mk.injEq] at h
  obtain ⟨h1, h2, h3, h4, h5, h6, h7, h8⟩ := h
  simp only [DiagnosticState.mk.injEq]
  exact ⟨optJ_inj h1, optJ_inj h2, optJ_inj h3, listJ_inj h4, listJ_inj h5,
    listJ_inj h6, listJ_inj h7, by injection h8⟩

theorem escapeChar_length_pos (c : Char) : 1 ≤ (escapeChar c).length := by
  unfold escapeChar
  split_ifs <;> simp

theorem escapeStr_length_ge (s : Str) : s.length ≤ (escapeStr s).length := by
  induction s with
  | nil => simp [escapeStr]
  | cons c cs ih =>
    have := escapeChar_length_pos c
    simp [escapeStr]
    omega

theorem kvDump_length_ge (k v : Str) : k.length + 4 ≤ (kvDump k v).length := by
  have := escapeStr_length_ge k
  simp [kvDump, quoteStr]
  omega

theorem serialize_length_ge (s : DiagnosticState) : 23 ≤ (serialize s).length := by
  have e1 : keyDeviceIp.length = 9 := rfl
  have e2 : keyDeviceName.length = 11 := rfl
  have hk1 := kvDump_length_ge keyDeviceIp (dumpOptStr s.device_ip)
  have hk2 := kvDump_length_ge keyDeviceName (dumpOptStr s.device_name)
  rw [e1] at hk1
  rw [e2] at hk2
  simp [serialize, joinCommaSp, List.length_append]
  omega

/-- C10 counterexample: the string `{"status": "resolved"}` is not a valid
JSON encoding of the state's fields — no `DiagnosticState` serializes to it
(every serialization carries all eight keys and is longer) — yet
`deserialize` returns a non-default state from it (`status` set to
`"resolved"`, everything else defaulted), because `cls(**d)` accepts any
subset of the field names. -/
theorem c10_serialization_counterexample :
    (∀ s : DiagnosticState, serialize s ≠ ("\x7b\"status\": \"resolved\"\x7d".toList)) ∧
    deserialize ("\x7b\"status\": \"resolved\"\x7d".toList) ≠ defaultPyDiagnosticState := by
  constructor
  · intro s hcontra
    have hlen := congrArg List.length hcontra
    have hge := serialize_length_ge s
    rw [hlen] at hge
    simp at hge
  · intro hcontra
    have heval : deserialize ("\x7b\"status\": \"resolved\"\x7d".toList) =
        ⟨JVal.jnull, JVal.jnull, JVal.jnull, JVal.jarr [], JVal.jarr [], JVal.jarr [],
         JVal.jarr [], JVal.jstr ("resolved".toList)⟩ := rfl
    rw [heval] at hcontra
    simp only [defaultPyDiagnosticState, toDyn, defaultDiagnosticState, optJ, listJ,
      List.map_nil, PyDiagnosticState.mk.injEq] at hcontra
    obtain ⟨-, -, -, -, -, -, -, h8⟩ := hcontra
    have : ("resolved".toList : Str) = strIdle := by injection h8
    simp [strIdle] at this

/-- C10 (amended): `deserialize (serialize state)` returns a state equal to
the original (the dynamic embedding `toDyn` is injective); the empty string,
any string that fails JSON parsing, and any parsed value rejected by the
keyword application (a non-object, or an object with an unknown key) give
the default state; but a valid JSON object whose keys are a subset of the
field names builds a state from exactly those entries — missing fields
defaulted, values not type-checked — which need not be the default state. -/
theorem c10_serialization_amended (s : DiagnosticState) (raw : Str) :
    deserialize (serialize s) = toDyn s ∧
    (∀ a b : DiagnosticState, toDyn a = toDyn b → a = b) ∧
    deserialize [] = defaultPyDiagnosticState ∧
    (raw ≠ [] → json_loads raw = none → deserialize raw = defaultPyDiagnosticState) ∧
    (∀ v, raw ≠ [] → json_loads raw = some v → applyKwargs v = none →
      deserialize raw = defaultPyDiagnosticState) := by
  refine ⟨deserialize_serialize s, toDyn_inj, rfl, ?_, ?_⟩
  · intro hne hl
    unfold deserialize
    rw [if_neg hne, hl]
  · intro v hne hl hk
    unfold deserialize
    rw [if_neg hne, hl]
    simp [hk]

/-- C10 (amended) witness: the round trip on the default state, and the
default result on a concrete non-JSON string. -/
theorem c10_serialization_amended_witness :
    deserialize (serialize defaultDiagnosticState) = toDyn defaultDiagnosticState ∧
    (("oops".toList : Str) ≠ [] ∧ json_loads ("oops".toList) = none ∧
      deserialize ("oops".toList) = defaultPyDiagnosticState) :=
  ⟨(c10_serialization_amended defaultDiagnosticState ("oops".toList)).1,
   ⟨by decide, rfl,
    (c10_serialization_amended defaultDiagnosticState ("oops".toList)).2.2.2.1
      (by decide) rfl⟩⟩
